import Mathlib

set_option synthInstance.maxSize 1000
set_option maxRecDepth 8000

/-!
Shallow embedding of the Texas Hold'em engine
(`card.py`, `constants.py`, `player.py`, `hand_evaluator.py`, `game.py`)
and proofs about it.

Python integers are modelled as `Int` for chip amounts and `Nat` for list
indices and identifiers.  Python lists are Lean lists; `list.pop()` removes
the last element.  Python dictionaries whose iteration order matters
(`collections.defaultdict` and plain `dict` preserve insertion order) are
modelled as association lists built in insertion order.
-/

namespace Poker

/-- Equality on `Except` results is decidable (used to evaluate theorems on
concrete runs). -/
instance {ε α : Type} [DecidableEq ε] [DecidableEq α] : DecidableEq (Except ε α) := fun x y =>
  match x, y with
  | .ok a, .ok b =>
    if h : a = b then isTrue (by rw [h])
    else isFalse (by intro hh; injection hh; contradiction)
  | .error a, .error b =>
    if h : a = b then isTrue (by rw [h])
    else isFalse (by intro hh; injection hh; contradiction)
  | .ok _, .error _ => isFalse (by intro hh; exact Except.noConfusion hh)
  | .error _, .ok _ => isFalse (by intro hh; exact Except.noConfusion hh)

/-! ## constants.py -/

/-- constants.py SUITS. -/
def SUITS : List Char := ['C', 'D', 'H', 'S']

/-- constants.py RANKS. -/
def RANKS : List Char := ['2', '3', '4', '5', '6', '7', '8', '9', 'T', 'J', 'Q', 'K', 'A']

def HIGH_CARD : Nat := 0
def PAIR : Nat := 1
def TWO_PAIR : Nat := 2
def THREE_OF_A_KIND : Nat := 3
def STRAIGHT : Nat := 4
def FLUSH : Nat := 5
def FULL_HOUSE : Nat := 6
def FOUR_OF_A_KIND : Nat := 7
def STRAIGHT_FLUSH : Nat := 8
def ROYAL_FLUSH : Nat := 9

/-- constants.py HAND_RANKINGS, as a partial lookup (a missing key raises
KeyError in Python, modelled by `none`). -/
def handRankingName : Nat → Option String
  | 0 => some "High Card"
  | 1 => some "Pair"
  | 2 => some "Two Pair"
  | 3 => some "Three of a Kind"
  | 4 => some "Straight"
  | 5 => some "Flush"
  | 6 => some "Full House"
  | 7 => some "Four of a Kind"
  | 8 => some "Straight Flush"
  | 9 => some "Royal Flush"
  | _ => none

def PHASE_PREFLOP : String := "pre_flop"
def PHASE_FLOP : String := "flop"
def PHASE_TURN : String := "turn"
def PHASE_RIVER : String := "river"
def PHASE_SHOWDOWN : String := "showdown"

def ACTION_FOLD : String := "fold"
def ACTION_CHECK : String := "check"
def ACTION_CALL : String := "call"
def ACTION_BET : String := "bet"
def ACTION_RAISE : String := "raise"
def ACTION_ALL_IN : String := "all_in"

/-! ## card.py -/

/-- card.py Card: a suit character and a rank character. -/
structure Card where
  suit : Char
  rank : Char
deriving DecidableEq, Repr

/-- card.py Card.rank_value: RANKS.index(self.rank).  (Int-valued because the
evaluator later compares it with the wheel value -1.) -/
def Card.rank_value (c : Card) : Int := ((RANKS.indexOf c.rank : Nat) : Int)

/-- card.py Card.__str__: rank letter followed by suit letter. -/
def cardStr (c : Card) : String := String.mk [c.rank, c.suit]

/-- card.py Deck.reset: `[Card(suit, rank) for suit in SUITS for rank in RANKS]`
(suits outer, ranks inner). -/
def freshDeck : List Card := (SUITS.map (fun s => RANKS.map (fun r => Card.mk s r))).flatten

/-! ## Python value tuples

The evaluator returns tie-break values that are Python tuples whose elements
are ints or tuples of ints.  `PyVal` is one element of such a tuple; a whole
tie-break value is a `List PyVal`.  Comparison follows Python tuple
comparison (lexicographic; a strict prefix is smaller).  Elements of
different shapes are never compared by the source (comparisons only happen
between values of the same hand category, which always have the same shape).
-/

inductive PyVal where
  | i (n : Int)
  | t (l : List Int)
deriving DecidableEq, Repr

/-- Python `<` on same-length int tuples (lexicographic with prefix rule). -/
def intListLt : List Int → List Int → Bool
  | [], [] => false
  | [], _ :: _ => true
  | _ :: _, [] => false
  | x :: xs, y :: ys => if x < y then true else if y < x then false else intListLt xs ys

/-- Python `<` on one tuple element. -/
def pyElLt : PyVal → PyVal → Bool
  | .i m, .i n => m < n
  | .t xs, .t ys => intListLt xs ys
  | _, _ => false

/-- Python `<` on a whole tie-break tuple. -/
def pyValLt : List PyVal → List PyVal → Bool
  | [], [] => false
  | [], _ :: _ => true
  | _ :: _, [] => false
  | x :: xs, y :: ys => if pyElLt x y then true else if pyElLt y x then false else pyValLt xs ys

/-- Python `(rank1, value1) > (rank2, value2)` as used at
hand_evaluator.py line 35: `rank > best_rank or (rank == best_rank and value > best_value)`. -/
def pairGt (a b : Nat × List PyVal) : Bool :=
  a.1 > b.1 || (a.1 == b.1 && pyValLt b.2 a.2)

/-! ## hand_evaluator.py -/

/-- Python `max` over a list of ints (callers only use nonempty lists). -/
def listMax : List Int → Int
  | [] => 0
  | x :: xs => xs.foldl max x

/-- Python `min` over a list of ints (callers only use nonempty lists). -/
def listMin : List Int → Int
  | [] => 0
  | x :: xs => xs.foldl min x

/-- Python `sorted(..., reverse=True)` / `.sort(reverse=True)` on ints
(stable, descending). -/
def sortDesc (l : List Int) : List Int := l.insertionSort (fun a b => b ≤ a)

instance : IsTotal Int (fun a b : Int => b ≤ a) := ⟨fun a b => le_total b a⟩

instance : IsTrans Int (fun a b : Int => b ≤ a) := ⟨fun _ _ _ hab hbc => le_trans hbc hab⟩

/-- One step of building an insertion-ordered count table. -/
def bumpCount {α : Type} [DecidableEq α] (k : α) : List (α × Nat) → List (α × Nat)
  | [] => [(k, 1)]
  | (x, n) :: rest => if x = k then (x, n + 1) :: rest else (x, n) :: bumpCount k rest

/-- A Python dict of counts (`defaultdict(int)` filled in iteration order, or
the equivalent `dict.get(k, 0) + 1` pattern), keeping insertion order as
Python dicts do. -/
def countItems {α : Type} [DecidableEq α] (l : List α) : List (α × Nat) :=
  l.foldl (fun acc r => bumpCount r acc) []

/-- RANKS.index of a rank character, as an Int. -/
def rankIndex (r : Char) : Int := ((RANKS.indexOf r : Nat) : Int)

/-- hand_evaluator.py lines 71-80: straight detection over the five rank
values.  Takes the raw values and the descending-sorted values; returns the
is_straight flag and the (possibly wheel-adjusted) tie-break values: for
A,2,3,4,5 the list becomes `[3, 2, 1, 0, -1]`, treating the ace as -1. -/
def straightCheck (rank_values : List Int) (sorted_desc : List Int) : Bool × List Int :=
  if rank_values.dedup.length == 5 then
    if listMax rank_values - listMin rank_values == 4 then (true, sorted_desc)
    else if rank_values.toFinset == ({0, 1, 2, 3, 12} : Finset Int) then (true, [3, 2, 1, 0, -1])
    else (false, sorted_desc)
  else (false, sorted_desc)

/-- hand_evaluator.py HandEvaluator._evaluate_five_card_hand (lines 45-132):
rank category and tie-break value of a 5-card hand. -/
def evalFive (hand : List Card) : Nat × List PyVal :=
  let suits := hand.map (·.suit)
  let is_flush := suits.dedup.length == 1
  let ranks := hand.map (·.rank)
  let sorted_desc := sortDesc (hand.map Card.rank_value)
  let counts := countItems ranks
  let cvals := counts.map (·.2)
  let sc := straightCheck (hand.map Card.rank_value) sorted_desc
  let is_straight := sc.1
  let rank_values := sc.2
  if is_straight && is_flush then
    if ranks.toFinset == ({'T', 'J', 'Q', 'K', 'A'} : Finset Char) then
      (ROYAL_FLUSH, rank_values.map PyVal.i)
    else (STRAIGHT_FLUSH, rank_values.map PyVal.i)
  else if cvals.contains 4 then
    let four_rank := ((counts.find? (fun e => e.2 == 4)).map (·.1)).getD ' '
    let kicker := (ranks.find? (fun r => r != four_rank)).getD ' '
    (FOUR_OF_A_KIND, [PyVal.i (rankIndex four_rank), PyVal.i (rankIndex kicker)])
  else if cvals.contains 3 && cvals.contains 2 then
    let three_rank := ((counts.find? (fun e => e.2 == 3)).map (·.1)).getD ' '
    let pair_rank := ((counts.find? (fun e => e.2 == 2)).map (·.1)).getD ' '
    (FULL_HOUSE, [PyVal.i (rankIndex three_rank), PyVal.i (rankIndex pair_rank)])
  else if is_flush then (FLUSH, rank_values.map PyVal.i)
  else if is_straight then (STRAIGHT, rank_values.map PyVal.i)
  else if cvals.contains 3 then
    let three_rank := ((counts.find? (fun e => e.2 == 3)).map (·.1)).getD ' '
    let kickers := ranks.filter (fun r => r != three_rank)
    (THREE_OF_A_KIND, [PyVal.i (rankIndex three_rank), PyVal.t (sortDesc (kickers.map rankIndex))])
  else if (cvals.filter (· == 2)).length == 2 then
    let pairs := (counts.filter (fun e => e.2 == 2)).map (·.1)
    let pair_values := sortDesc (pairs.map rankIndex)
    let kicker := (ranks.find? (fun r => !(pairs.contains r))).getD ' '
    (TWO_PAIR, [PyVal.t pair_values, PyVal.i (rankIndex kicker)])
  else if cvals.contains 2 then
    let pair_rank := ((counts.find? (fun e => e.2 == 2)).map (·.1)).getD ' '
    let kickers := ranks.filter (fun r => r != pair_rank)
    (PAIR, [PyVal.i (rankIndex pair_rank), PyVal.t (sortDesc (kickers.map rankIndex))])
  else (HIGH_CARD, rank_values.map PyVal.i)

/-- One step of the best-hand fold of hand_evaluator.py lines 33-38:
`rank > best_rank or (rank == best_rank and value > best_value)` replaces the
best.  `none` models the initial `best_rank = -1`, which any rank beats. -/
def bestStep (best : Option (Nat × List PyVal)) (h : List Card) : Option (Nat × List PyVal) :=
  let rv := evalFive h
  match best with
  | none => some rv
  | some b => if pairGt rv b then some rv else some b

/-- hand_evaluator.py lines 27-38: fold over all 5-card combinations keeping
the maximum `(rank, value)`. -/
def bestOfCombos (combos : List (List Card)) : Option (Nat × List PyVal) :=
  combos.foldl bestStep none

/-- hand_evaluator.py HandEvaluator.evaluate_hand (lines 11-43): the public
result is only `(best_rank, hand_name)` — the internal tie-break value is
dropped.  Fewer than 5 cards raises ValueError; a best rank not in
HAND_RANKINGS would raise KeyError. -/
def evaluate_hand (cards : List Card) : Except String (Nat × String) :=
  if cards.length < 5 then .error "Need at least 5 cards to evaluate a hand"
  else
    match bestOfCombos (List.sublistsLen 5 cards) with
    | some (r, _) =>
      match handRankingName r with
      | some n => .ok (r, n)
      | none => .error "KeyError"
    | none => .error "KeyError"

/-! ## player.py -/

/-- player.py Player. -/
structure Player where
  name : String
  chips : Int
  player_id : Nat
  cards : List Card
  is_active : Bool
  is_all_in : Bool
  current_bet : Int
  total_bet : Int
  has_acted : Bool
  position : Option String
deriving DecidableEq, Repr

/-- player.py Player.__init__ as used by game.py add_player. -/
def mkPlayer (name : String) (chips : Int) (player_id : Nat) : Player :=
  { name := name, chips := chips, player_id := player_id, cards := [],
    is_active := true, is_all_in := false, current_bet := 0, total_bet := 0,
    has_acted := false, position := none }

/-- player.py reset_for_new_hand (does not touch has_acted). -/
def resetForNewHand (p : Player) : Player :=
  { p with cards := [], is_active := true, is_all_in := false, current_bet := 0, total_bet := 0 }

/-- player.py all_in (lines 163-176); returns the updated player and the
amount moved. -/
def playerAllIn (p : Player) : Player × Int :=
  let amount := p.chips
  ({ p with
     current_bet := p.current_bet + amount, chips := 0, is_all_in := true,
            has_acted := true }, amount)

/-- player.py bet (lines 112-134); an amount at or above the stack becomes an
all-in. -/
def playerBet (p : Player) (amount : Int) : Player × Int :=
  if amount ≥ p.chips then playerAllIn p
  else
    let p := { p with current_bet := amount, chips := p.chips - amount, has_acted := true }
    (if p.chips == 0 then { p with is_all_in := true } else p, amount)

/-! ## game.py: state

A pot's `eligible_players` list is, in the source, either a list of Player
objects (written by start_new_hand line 93) or a list of integer ids (written
by create_side_pots / _add_to_pot).  `Elig` keeps the distinction: a Python
`player_id in pot['eligible_players']` membership test compares an int
against each entry, and an int never equals a Player object (Player defines
no __eq__ against ints), so only `pid` entries can match.
-/

inductive Elig where
  | pid (n : Nat)
  | pobj (n : Nat)
deriving DecidableEq, Repr

structure Pot where
  amount : Int
  eligible_players : List Elig
deriving DecidableEq, Repr

/-- game.py TexasHoldemGame mutable state (lines 24-39 plus the
last_pot_total / last_pot_distribution attributes set in _distribute_pot;
`none` models the attribute not existing yet). -/
structure GameState where
  players : List Player
  deck : List Card
  community_cards : List Card
  pots : List Pot
  current_phase : Option String
  active_player_index : Option Nat
  dealer_position : Option Nat
  small_blind_position : Option Nat
  big_blind_position : Option Nat
  small_blind : Int
  big_blind : Int
  ante : Int
  current_bet : Int
  max_players : Nat
  hands_played : Nat
  last_pot_total : Option Int
  last_pot_distribution : Option (List (Nat × Int))
deriving DecidableEq, Repr

/-- The exceptions game.py raises (each ValueError site gets a tag), plus the
IndexError/KeyError style failures that list indexing and dealing from an
empty deck would raise. -/
inductive GErr where
  | playerNotFound
  | notYourTurn
  | playerFolded
  | indexError
  | checkWithBet
  | callNothing
  | betOutstanding
  | betBelowMin
  | betOverStack
  | raiseNoBet
  | raiseBelowMin
  | raiseOverStack
  | allInNoChips
  | invalidAction
  | deckEmpty
  | invalidPhase
  | tableFull
deriving DecidableEq, Repr

/-- Sum of pot amounts: `sum(pot['amount'] for pot in self.pots)`. -/
def potSum (pots : List Pot) : Int := (pots.map (·.amount)).foldl (· + ·) 0

/-- Replace the player object at index `i` (no-op when out of range, matching
code paths that only run with a valid index). -/
def updateAt (ps : List Player) (i : Nat) (f : Player → Player) : List Player :=
  match ps[i]? with
  | some p => ps.set i (f p)
  | none => ps

/-- Python `wid in eligible_players` where `wid` is an int: only int entries
can compare equal. -/
def eligMemInt (wid : Nat) : List Elig → Bool
  | [] => false
  | .pid n :: rest => if n == wid then true else eligMemInt wid rest
  | .pobj _ :: rest => eligMemInt wid rest

/-- The while loops of the form `while not cond(i): i = (i+1) % n`, as a
fueled first-hit search over residues starting at `start`. -/
def findIdxFrom (cond : Nat → Bool) (start n : Nat) : Nat → Option Nat
  | 0 => none
  | fuel + 1 =>
    let j := start % n
    if cond j then some j else findIdxFrom cond (start + 1) n fuel

/-- Seat i holds a non-folded, non-all-in player. -/
def eligAt (s : GameState) (i : Nat) : Bool :=
  match s.players[i]? with
  | some p => p.is_active && !p.is_all_in
  | none => false

/-- Seat i holds a player with chips. -/
def fundedAt (s : GameState) (i : Nat) : Bool :=
  match s.players[i]? with
  | some p => p.chips > 0
  | none => false

/-! ## game.py: hand evaluation wrappers and winners -/

/-- game.py _evaluate_hand fallback path (lines 983-1029). -/
def fallbackEvaluate (cards : List Card) : Nat × String × List Card :=
  let rank_counts := countItems (cards.map (·.rank))
  let suit_counts := countItems (cards.map (·.suit))
  let has_flush := suit_counts.any (fun e => e.2 ≥ 5)
  let has_straight := rank_counts.length ≥ 5
  let pairs := (rank_counts.filter (fun e => e.2 == 2)).map (·.1)
  let trips := (rank_counts.filter (fun e => e.2 == 3)).map (·.1)
  let quads := (rank_counts.filter (fun e => e.2 == 4)).map (·.1)
  if has_straight && has_flush then (8, "Straight Flush", cards.take 5)
  else if !quads.isEmpty then (7, "Four of a Kind", cards.take 5)
  else if !trips.isEmpty && !pairs.isEmpty then (6, "Full House", cards.take 5)
  else if has_flush then (5, "Flush", cards.take 5)
  else if has_straight then (4, "Straight", cards.take 5)
  else if !trips.isEmpty then (3, "Three of a Kind", cards.take 5)
  else if pairs.length ≥ 2 then (2, "Two Pair", cards.take 5)
  else if !pairs.isEmpty then (1, "Pair", cards.take 5)
  else (0, "High Card", cards.take 5)

/-- game.py _evaluate_hand (lines 959-1029): tries the evaluator and falls
back on any exception. -/
def gameEvaluateHand (cards : List Card) : Nat × String × List Card :=
  match evaluate_hand cards with
  | .ok (r, n) => (r, n, cards.take 5)
  | .error _ => fallbackEvaluate cards

/-- One winner dictionary of game.py (_determine_winners / the fold branch /
_distribute_pot).  `idx` is the position of the Player object in
`players`, standing in for the Python object reference. -/
structure WinnerRec where
  idx : Nat
  player_id : Nat
  player_name : String
  hand_rank : Nat
  hand_name : String
  amount : Int
deriving DecidableEq, Repr

/-- game.py _determine_winners (lines 599-663).  Sorting is by hand_rank
alone (stable, descending) and ties are returned together: the comment at
lines 654-660 leaves same-category ties unresolved. -/
def determineWinners (s : GameState) : List WinnerRec :=
  let elig := s.players.enum.filter (fun e => e.2.is_active || e.2.is_all_in)
  match elig with
  | [(i, p)] =>
    [{ idx := i, player_id := p.player_id, player_name := p.name,
       hand_rank := 0, hand_name := "Default Win", amount := 0 }]
  | [] => []
  | _ =>
    let player_hands : List WinnerRec := elig.map (fun e =>
      let res := gameEvaluateHand (e.2.cards ++ s.community_cards)
      { idx := e.1, player_id := e.2.player_id, player_name := e.2.name,
        hand_rank := res.1, hand_name := res.2.1, amount := 0 })
    let sorted := player_hands.insertionSort (fun a b => b.hand_rank ≤ a.hand_rank)
    match sorted with
    | [] => []
    | best :: _ => sorted.filter (fun w => w.hand_rank == best.hand_rank)

/-- game.py _distribute_pot (lines 665-755). -/
def distributePot (s : GameState) (winners : List WinnerRec) : GameState × List WinnerRec :=
  match winners with
  | [] => (s, [])
  | [w] =>
    let totalBefore := potSum s.pots
    let wid := w.player_id
    let total_winnings :=
      s.pots.foldl (fun a pot => if eligMemInt wid pot.eligible_players then a + pot.amount else a) 0
    let s := { s with
               players := updateAt s.players w.idx
                 (fun p => { p with chips := p.chips + total_winnings }) }
    let w := { w with amount := total_winnings }
    let s := { s with
               last_pot_total := some totalBefore,
               last_pot_distribution := some [(wid, total_winnings)],
               pots := s.pots.map (fun pot => { pot with amount := 0 }) }
    (s, [w])
  | _ =>
    let totalBefore := potSum s.pots
    let winners := winners.map (fun w => { w with amount := 0 })
    let step := fun (acc : GameState × List WinnerRec × List (Nat × Int)) (pot : Pot) =>
      let st := acc.1
      let ws := acc.2.1
      let dist := acc.2.2
      let eligWs := ws.filter (fun w => eligMemInt w.player_id pot.eligible_players)
      if eligWs.isEmpty then (st, ws, dist)
      else
        let share := pot.amount.fdiv (eligWs.length : Int)
        let rem := pot.amount.fmod (eligWs.length : Int)
        let inner := fun (acc2 : GameState × List WinnerRec × List (Nat × Int) × Nat) (w : WinnerRec) =>
          let st2 := acc2.1
          let ws2 := acc2.2.1
          let dist2 := acc2.2.2.1
          let k := acc2.2.2.2
          let extra := if k == 0 then rem else 0
          let amt := share + extra
          let st3 := { st2 with
                       players := updateAt st2.players w.idx
                         (fun p => { p with chips := p.chips + amt }) }
          let ws3 := ws2.map (fun w2 => if w2.idx == w.idx then { w2 with amount := w2.amount + amt } else w2)
          (st3, ws3, dist2 ++ [(w.player_id, amt)], k + 1)
        let res := eligWs.foldl inner (st, ws, dist, 0)
        (res.1, res.2.1, res.2.2.1)
    let res := s.pots.foldl step (s, winners, [])
    let st := res.1
    let st := { st with
                last_pot_total := some totalBefore,
                last_pot_distribution := some res.2.2,
                pots := st.pots.map (fun pot => { pot with amount := 0 }) }
    (st, res.2.1)

/-! ## game.py: pots and rounds -/

/-- Add to pots[0] (callers guarantee the list is nonempty). -/
def potsAddFirst (pots : List Pot) (amt : Int) : List Pot :=
  match pots with
  | [] => []
  | p :: rest => { p with amount := p.amount + amt } :: rest

/-- Association-list read for the processed_bets dict of create_side_pots. -/
def lookupInt (l : List (Nat × Int)) (k : Nat) : Int :=
  ((l.find? (fun e => e.1 == k)).map (·.2)).getD 0

/-- Association-list write for the processed_bets dict of create_side_pots. -/
def setLookupInt (l : List (Nat × Int)) (k : Nat) (v : Int) : List (Nat × Int) :=
  l.map (fun e => if e.1 == k then (e.1, v) else e)

/-- game.py create_side_pots (lines 757-821). -/
def createSidePots (s : GameState) : GameState :=
  if !(s.players.any (fun p => p.is_active && p.is_all_in)) then s
  else
    let players_in_hand := s.players.filter (·.is_active)
    if players_in_hand.isEmpty then s
    else
      let sorted_players := players_in_hand.insertionSort (fun a b => a.current_bet ≤ b.current_bet)
      let total_pot := potSum s.pots
      let processed0 : List (Nat × Int) := players_in_hand.map (fun p => (p.player_id, (0 : Int)))
      let step := fun (acc : List Pot × List (Nat × Int) × Int) (player : Player) =>
        let pots := acc.1
        let processed := acc.2.1
        let prev_bet := acc.2.2
        let current_bet := player.current_bet
        if current_bet == prev_bet then (pots, processed, prev_bet)
        else
          let inner := fun (acc2 : Int × List (Nat × Int) × List Elig) (q : Player) =>
            let pot_amount := acc2.1
            let proc := acc2.2.1
            let eligs := acc2.2.2
            let contribution := min q.current_bet current_bet - lookupInt proc q.player_id
            if contribution > 0 then
              (pot_amount + contribution,
               setLookupInt proc q.player_id (lookupInt proc q.player_id + contribution),
               eligs ++ [Elig.pid q.player_id])
            else (pot_amount, proc, eligs)
          let res := players_in_hand.foldl inner (0, processed, [])
          let pot_amount := res.1
          let pots := if pot_amount > 0 then
              pots ++ [{ amount := pot_amount, eligible_players := res.2.2 }]
            else pots
          (pots, res.2.1, current_bet)
      let res := sorted_players.foldl step ([], processed0, 0)
      let new_pots := res.1
      let new_total := potSum new_pots
      let new_pots := if new_total != total_pot then
          match new_pots.getLast? with
          | some lastPot =>
            new_pots.dropLast ++ [{ lastPot with amount := lastPot.amount + (total_pot - new_total) }]
          | none => new_pots
        else new_pots
      let new_pots := if new_pots.isEmpty then
          [{ amount := total_pot, eligible_players := players_in_hand.map (fun p => Elig.pid p.player_id) }]
        else new_pots
      { s with pots := new_pots }

/-- game.py _add_to_pot (lines 933-945). -/
def addToPot (s : GameState) (amount : Int) : GameState :=
  let pots := if s.pots.isEmpty then
      [{ amount := 0,
         eligible_players := (s.players.filter (·.is_active)).map (fun p => Elig.pid p.player_id) }]
    else s.pots
  { s with pots := potsAddFirst pots amount }

/-- game.py _reset_betting_round (lines 947-957). -/
def resetBettingRound (s : GameState) : GameState :=
  { s with
    current_bet := 0,
    players := s.players.map (fun p =>
      if p.is_active then { p with has_acted := false, current_bet := 0 } else p) }

/-- game.py _is_betting_round_complete (lines 463-488). -/
def isBettingRoundComplete (s : GameState) : Bool :=
  let active_not_all_in := s.players.filter (fun p => p.is_active && !p.is_all_in)
  if active_not_all_in.isEmpty then true
  else if active_not_all_in.any (fun p => !p.has_acted) then false
  else
    let max_bet := listMax ((s.players.filter (·.is_active)).map (·.current_bet))
    !(active_not_all_in.any (fun p => p.current_bet < max_bet))

/-- game.py _move_to_next_active_player (lines 911-931): scan the seats after
the current one; when the scan wraps back the index is left unchanged. -/
def moveToNextActivePlayer (s : GameState) : GameState :=
  match s.active_player_index with
  | none => s
  | some orig =>
    let n := s.players.length
    match findIdxFrom (eligAt s) (orig + 1) n (n - 1) with
    | some j => { s with active_player_index := some j }
    | none => { s with active_player_index := some orig }

/-- game.py _set_active_player_after_phase_change (lines 1041-1061). -/
def setActivePlayerAfterPhaseChange (s : GameState) : GameState :=
  if (s.players.filter (fun p => p.is_active && !p.is_all_in)).isEmpty then
    { s with active_player_index := none }
  else
    let n := s.players.length
    let start := (s.dealer_position.getD 0) + 1
    match findIdxFrom (eligAt s) start n n with
    | some j => { s with active_player_index := some j }
    | none => s

/-! ## game.py: dealing -/

/-- card.py Deck.deal_card: pop the last card; empty deck raises. -/
def dealCardSt (s : GameState) : Except (GErr × GameState) (Card × GameState) :=
  match s.deck.getLast? with
  | some c => .ok (c, { s with deck := s.deck.dropLast })
  | none => .error (.deckEmpty, s)

/-- The dealing loop of _deal_community_cards. -/
def dealCommunityLoop (s : GameState) : Nat → Except (GErr × GameState) GameState
  | 0 => .ok s
  | n + 1 =>
    match dealCardSt s with
    | .error e => .error e
    | .ok (c, s1) => dealCommunityLoop { s1 with community_cards := s1.community_cards ++ [c] } n

/-- game.py _deal_community_cards (lines 202-221); every caller burns. -/
def dealCommunityCards (s : GameState) (count : Nat) : Except (GErr × GameState) GameState :=
  let s := if s.current_phase == some PHASE_PREFLOP then { s with community_cards := [] } else s
  let s := if s.deck.length > 0 then { s with deck := s.deck.dropLast } else s
  dealCommunityLoop s count

/-- The per-seat loop of _deal_hole_cards. -/
def dealHoleLoop (s : GameState) : List Nat → Except (GErr × GameState) GameState
  | [] => .ok s
  | i :: rest =>
    match s.players[i]? with
    | some p =>
      if p.is_active then
        match dealCardSt s with
        | .error e => .error e
        | .ok (c1, s1) =>
          match dealCardSt s1 with
          | .error e => .error e
          | .ok (c2, s2) =>
            dealHoleLoop
              { s2 with players := s2.players.set i { p with cards := p.cards ++ [c1, c2] } } rest
      else dealHoleLoop s rest
    | none => dealHoleLoop s rest

/-- game.py _deal_hole_cards (lines 194-200). -/
def dealHoleCards (s : GameState) : Except (GErr × GameState) GameState :=
  dealHoleLoop s (List.range s.players.length)

/-! ## game.py: phase advancing and the action entry point -/

/-- The dictionary fragment _advance_game_phase contributes to the action
result. -/
structure Patch where
  winners : Option (List WinnerRec)
  showdown : Bool
  new_phase : Option String
deriving DecidableEq, Repr

/-- game.py _advance_game_phase (lines 490-553).  The `else` arm of the phase
dispatch raises after the per-round fields were already reset, so that error
carries the mutated state. -/
def advanceGamePhase (s : GameState) : Except (GErr × GameState) (GameState × Patch) :=
  let s := { s with
    players := s.players.map (fun p => { p with current_bet := 0, has_acted := false }),
    current_bet := 0 }
  let step : Except (GErr × GameState) (GameState × Patch) :=
    if s.current_phase == some PHASE_PREFLOP then
      match dealCommunityCards { s with current_phase := some PHASE_FLOP } 3 with
      | .error e => .error e
      | .ok s1 => .ok (s1, { winners := none, showdown := false, new_phase := none })
    else if s.current_phase == some PHASE_FLOP then
      match dealCommunityCards { s with current_phase := some PHASE_TURN } 1 with
      | .error e => .error e
      | .ok s1 => .ok (s1, { winners := none, showdown := false, new_phase := none })
    else if s.current_phase == some PHASE_TURN then
      match dealCommunityCards { s with current_phase := some PHASE_RIVER } 1 with
      | .error e => .error e
      | .ok s1 => .ok (s1, { winners := none, showdown := false, new_phase := none })
    else if s.current_phase == some PHASE_RIVER then
      let s1 := { s with current_phase := some PHASE_SHOWDOWN }
      let winners := determineWinners s1
      let res := distributePot s1 winners
      .ok (res.1, { winners := some res.2, showdown := true, new_phase := none })
    else .error (.invalidPhase, s)
  match step with
  | .error e => .error e
  | .ok (s1, patch) =>
    let activeCount := (s1.players.filter (fun p => p.is_active && !p.is_all_in)).length
    if activeCount ≤ 1 && s1.current_phase != some PHASE_SHOWDOWN then
      let s2 := { s1 with current_phase := some PHASE_SHOWDOWN }
      let winners := determineWinners s2
      let res := distributePot s2 winners
      .ok (res.1, { winners := some res.2, showdown := true, new_phase := res.1.current_phase })
    else
      let s2 := if activeCount > 0 && s1.current_phase != some PHASE_SHOWDOWN then
          setActivePlayerAfterPhaseChange s1
        else s1
      .ok (s2, { patch with new_phase := s2.current_phase })

/-- The result dictionary of process_player_action. -/
structure ActionResult where
  action : String
  player_id : Nat
  amount : Int
  success : Bool
  winners : Option (List WinnerRec)
  showdown : Bool
  phase_complete : Bool
  new_phase : Option String
  active_player : Option Nat
  current_bet : Int
  pot : Int
deriving DecidableEq, Repr

/-- result["active_player"] (lines 435-438). -/
def activePlayerId (s : GameState) : Option Nat :=
  match s.active_player_index with
  | some ai => (s.players[ai]?).map (·.player_id)
  | none => none

/-- game.py lines 345-348 / 379-382 / 405-408: clear has_acted on the other
live, non-all-in players. -/
def resetOthersHasActed (s : GameState) (player_id : Nat) : GameState :=
  { s with
    players := s.players.map (fun p =>
      if p.player_id != player_id && p.is_active && !p.is_all_in then { p with has_acted := false }
      else p) }

/-- game.py process_player_action lines 421-446: the common tail (mark the
acting player, close the round or move to the next player, assemble the
result). -/
def afterAction (s : GameState) (pIdx player_id : Nat) (action : String) (resAmount : Int)
    (preWinners : Option (List WinnerRec)) (preShowdown : Bool) :
    Except (GErr × GameState) (GameState × ActionResult) :=
  let s := { s with players := updateAt s.players pIdx (fun p => { p with has_acted := true }) }
  if !(isBettingRoundComplete s) then
    let s := moveToNextActivePlayer s
    .ok (s, { action := action, player_id := player_id, amount := resAmount, success := true,
              winners := preWinners, showdown := preShowdown, phase_complete := false,
              new_phase := none, active_player := activePlayerId s,
              current_bet := s.current_bet, pot := potSum s.pots })
  else
    let s := if s.players.any (·.is_all_in) then createSidePots s else s
    match advanceGamePhase s with
    | .error e => .error e
    | .ok (s1, patch) =>
      .ok (s1, { action := action, player_id := player_id, amount := resAmount, success := true,
                 winners := (match patch.winners with | some w => some w | none => preWinners),
                 showdown := preShowdown || patch.showdown, phase_complete := true,
                 new_phase := patch.new_phase, active_player := activePlayerId s1,
                 current_bet := s1.current_bet, pot := potSum s1.pots })

/-- game.py lines 260-294: the fold branch. -/
def foldBranch (s : GameState) (pIdx player_id : Nat) (amount : Int) :
    Except (GErr × GameState) (GameState × ActionResult) :=
  let s := { s with players := updateAt s.players pIdx (fun p => { p with is_active := false }) }
  let actives := s.players.enum.filter (fun e => e.2.is_active)
  if actives.length == 1 then
    let s := resetBettingRound s
    if s.current_phase == some PHASE_SHOWDOWN then
      let winners := determineWinners s
      let res := distributePot s winners
      afterAction res.1 pIdx player_id ACTION_FOLD amount (some res.2) true
    else
      let s := { s with current_phase := some PHASE_SHOWDOWN }
      let pot_total := potSum s.pots
      let winners : List WinnerRec := match actives with
        | (wi, wp) :: _ =>
          [{ idx := wi, player_id := wp.player_id, player_name := wp.name,
             hand_rank := 0, hand_name := "Last Player Standing", amount := pot_total }]
        | [] => []
      let res := distributePot s winners
      afterAction res.1 pIdx player_id ACTION_FOLD amount (some res.2) true
  else
    afterAction s pIdx player_id ACTION_FOLD amount none false

/-- game.py lines 296-299: the check branch. -/
def checkBranch (s : GameState) (pIdx player_id : Nat) (player : Player) (amount : Int) :
    Except (GErr × GameState) (GameState × ActionResult) :=
  if s.current_bet > player.current_bet then .error (.checkWithBet, s)
  else afterAction s pIdx player_id ACTION_CHECK amount none false

/-- game.py lines 301-324: the call branch. -/
def callBranch (s : GameState) (pIdx player_id : Nat) (player : Player) :
    Except (GErr × GameState) (GameState × ActionResult) :=
  let call_amount := min player.chips (s.current_bet - player.current_bet)
  if call_amount ≤ 0 then .error (.callNothing, s)
  else
    let s := { s with
               players := updateAt s.players pIdx (fun p =>
      let p := { p with chips := p.chips - call_amount, current_bet := p.current_bet + call_amount }
      if p.chips == 0 then { p with is_all_in := true } else p) }
    let s := addToPot s call_amount
    afterAction s pIdx player_id ACTION_CALL call_amount none false

/-- game.py lines 326-352: the bet branch. -/
def betBranch (s : GameState) (pIdx player_id : Nat) (player : Player) (amount : Int) :
    Except (GErr × GameState) (GameState × ActionResult) :=
  if s.current_bet > 0 then .error (.betOutstanding, s)
  else if amount < s.big_blind then .error (.betBelowMin, s)
  else if amount > player.chips then .error (.betOverStack, s)
  else
    let s := { s with
               players := updateAt s.players pIdx (fun p =>
      { p with chips := p.chips - amount, current_bet := amount }) }
    let s := { s with current_bet := amount }
    let s := addToPot s amount
    let s := resetOthersHasActed s player_id
    let s := { s with
               players := updateAt s.players pIdx (fun p =>
      if p.chips == 0 then { p with is_all_in := true } else p) }
    afterAction s pIdx player_id ACTION_BET amount none false

/-- game.py lines 354-386: the raise branch.  The minimum is
current_bet + (current_bet - player.current_bet). -/
def raiseBranch (s : GameState) (pIdx player_id : Nat) (player : Player) (amount : Int) :
    Except (GErr × GameState) (GameState × ActionResult) :=
  if s.current_bet ≤ 0 then .error (.raiseNoBet, s)
  else
    let min_raise := s.current_bet + (s.current_bet - player.current_bet)
    if amount < min_raise then .error (.raiseBelowMin, s)
    else if amount > player.chips + player.current_bet then .error (.raiseOverStack, s)
    else
      let raise_amount := amount - player.current_bet
      let s := { s with
                 players := updateAt s.players pIdx (fun p =>
        { p with chips := p.chips - raise_amount, current_bet := amount }) }
      let s := { s with current_bet := amount }
      let s := addToPot s raise_amount
      let s := resetOthersHasActed s player_id
      let s := { s with
                 players := updateAt s.players pIdx (fun p =>
        if p.chips == 0 then { p with is_all_in := true } else p) }
      afterAction s pIdx player_id ACTION_RAISE amount none false

/-- game.py lines 388-416: the all-in branch.  Whenever the all-in total
exceeds the current bet, the high bet is raised to it and every other live,
non-all-in player has has_acted cleared, regardless of the size of the
excess. -/
def allInBranch (s : GameState) (pIdx player_id : Nat) (player : Player) (amount : Int) :
    Except (GErr × GameState) (GameState × ActionResult) :=
  let all_in_amount := player.chips
  if all_in_amount == 0 then .error (.allInNoChips, s)
  else
    let s :=
      if player.current_bet + all_in_amount ≥ s.current_bet then
        let total_bet := player.current_bet + all_in_amount
        if total_bet > s.current_bet then
          resetOthersHasActed { s with current_bet := total_bet } player_id
        else s
      else s
    let s := { s with
               players := updateAt s.players pIdx (fun p =>
      { p with chips := 0, current_bet := p.current_bet + all_in_amount, is_all_in := true }) }
    let s := addToPot s all_in_amount
    afterAction s pIdx player_id ACTION_ALL_IN amount none false

/-- game.py TexasHoldemGame.process_player_action (lines 223-446).  Each
`raise ValueError` becomes `.error` carrying the state at the point of the
raise. -/
def processPlayerAction (s : GameState) (player_id : Nat) (action : String) (amount : Int) :
    Except (GErr × GameState) (GameState × ActionResult) :=
  match s.players.enum.find? (fun e => e.2.player_id == player_id) with
  | none => .error (.playerNotFound, s)
  | some (pIdx, player) =>
    match s.active_player_index with
    | none => .error (.notYourTurn, s)
    | some ai =>
      match s.players[ai]? with
      | none => .error (.indexError, s)
      | some activeP =>
        if activeP.player_id != player_id then .error (.notYourTurn, s)
        else if !player.is_active then .error (.playerFolded, s)
        else if action == ACTION_FOLD then foldBranch s pIdx player_id amount
        else if action == ACTION_CHECK then checkBranch s pIdx player_id player amount
        else if action == ACTION_CALL then callBranch s pIdx player_id player
        else if action == ACTION_BET then betBranch s pIdx player_id player amount
        else if action == ACTION_RAISE then raiseBranch s pIdx player_id player amount
        else if action == ACTION_ALL_IN then allInBranch s pIdx player_id player amount
        else .error (.invalidAction, s)

/-! ## game.py: table management and hand setup -/

/-- game.py TexasHoldemGame.__init__ (lines 14-39). -/
def initGame (small_blind big_blind : Int) (max_players : Nat) (ante : Int) : GameState :=
  { players := [], deck := freshDeck, community_cards := [],
    pots := [{ amount := 0, eligible_players := [] }],
    current_phase := none, active_player_index := none,
    dealer_position := none, small_blind_position := none, big_blind_position := none,
    small_blind := small_blind, big_blind := big_blind, ante := ante,
    current_bet := 0, max_players := max_players, hands_played := 0,
    last_pot_total := none, last_pot_distribution := none }

/-- game.py add_player (lines 41-59): the id handed out is the current player
count. -/
def addPlayer (s : GameState) (name : String) (chips : Int) : Except GErr (GameState × Nat) :=
  if s.players.length ≥ s.max_players then .error .tableFull
  else
    let player_id := s.players.length
    .ok ({ s with players := s.players ++ [mkPlayer name chips player_id] }, player_id)

/-- game.py remove_player (lines 61-75): pops the first player whose id
matches. -/
def removePlayer (s : GameState) (player_id : Nat) : GameState × Bool :=
  match s.players.enum.find? (fun e => e.2.player_id == player_id) with
  | some (i, _) => ({ s with players := s.players.eraseIdx i }, true)
  | none => (s, false)

/-- Mark the player at seat i with a position string. -/
def setPosition (s : GameState) (i : Nat) (pos : String) : GameState :=
  { s with players := updateAt s.players i (fun p => { p with position := some pos }) }

/-- game.py _assign_positions (lines 136-162): dealer, then the next funded
seat is the small blind, then the next funded seat after that is the big
blind (heads-up this wraps back to the dealer, overwriting its position
with big_blind). -/
def assignPositions (s : GameState) : GameState :=
  let n := s.players.length
  let dealer := (findIdxFrom (fundedAt s) (s.dealer_position.getD 0) n n).getD (s.dealer_position.getD 0)
  let s := setPosition { s with dealer_position := some dealer } dealer "dealer"
  let sb := (findIdxFrom (fundedAt s) (dealer + 1) n n).getD ((dealer + 1) % n)
  let s := setPosition { s with small_blind_position := some sb } sb "small_blind"
  let bb := (findIdxFrom (fundedAt s) (sb + 1) n n).getD ((sb + 1) % n)
  setPosition { s with big_blind_position := some bb } bb "big_blind"

/-- game.py _post_antes (lines 164-178). -/
def postAntes (s : GameState) : GameState :=
  if s.ante ≤ 0 then s
  else
    (List.range s.players.length).foldl
      (fun st i =>
        match st.players[i]? with
        | some p =>
          if p.chips > 0 then
            let ante_amount := min st.ante p.chips
            let p := { p with chips := p.chips - ante_amount }
            let p := if p.chips == 0 then { p with is_all_in := true } else p
            { st with
              players := st.players.set i p,
                      pots := potsAddFirst st.pots ante_amount }
          else st
        | none => st)
      s

/-- Post a forced bet from seat i via player.py bet. -/
def betAt (s : GameState) (i : Nat) (amt : Int) : GameState :=
  match s.players[i]? with
  | some p =>
    let res := playerBet p amt
    { s with players := s.players.set i res.1, pots := potsAddFirst s.pots res.2 }
  | none => s

/-- game.py _post_blinds (lines 180-192). -/
def postBlinds (s : GameState) : GameState :=
  let s := betAt s (s.small_blind_position.getD 0) s.small_blind
  let s := betAt s (s.big_blind_position.getD 0) s.big_blind
  { s with current_bet := s.big_blind }

/-- game.py start_new_hand (lines 77-134).  `shuffled` is the injected
post-shuffle deck order (deck.reset(); deck.shuffle() draws from the global
RNG).  Returns `none` when fewer than two seats are funded (Python returns
False without mutating). -/
def startNewHand (s : GameState) (shuffled : List Card) :
    Except (GErr × GameState) (Option GameState) :=
  let active := s.players.filter (fun p => p.chips > 0)
  if active.length < 2 then .ok none
  else
    let s := { s with
      deck := shuffled, community_cards := [],
      pots := [{ amount := 0, eligible_players := active.map (fun (p : Player) => Elig.pobj p.player_id) }],
      current_phase := some PHASE_PREFLOP, current_bet := 0 }
    let s := { s with players := s.players.map resetForNewHand }
    let n := s.players.length
    let s := match s.dealer_position with
      | none => { s with dealer_position := some 0 }
      | some d =>
        { s with dealer_position := some ((findIdxFrom (fundedAt s) (d + 1) n n).getD ((d + 1) % n)) }
    let s := assignPositions s
    let s := postAntes s
    let s := postBlinds s
    match dealHoleCards s with
    | .error e => .error e
    | .ok s =>
      let s :=
        if active.length == 2 then { s with active_player_index := s.dealer_position }
        else
          let start := (s.big_blind_position.getD 0) + 1
          let cond := fun i => match s.players[i]? with
            | some p => p.is_active
            | none => false
          match findIdxFrom cond start n n with
          | some j => { s with active_player_index := some j }
          | none => { s with active_player_index := some (start % n) }
      .ok (some { s with hands_played := s.hands_played + 1 })

/-! ## game.py: snapshots -/

structure PotView where
  amount : Int
  eligible_players : List Elig
deriving DecidableEq, Repr

structure PlayerView where
  id : Nat
  name : String
  chips : Int
  current_bet : Int
  total_bet : Int
  is_active : Bool
  is_all_in : Bool
  position : Option String
deriving DecidableEq, Repr

structure GameView where
  phase : Option String
  community_cards : List String
  pots : List PotView
  pot : Int
  current_bet : Int
  active_player : Option Nat
  dealer : Option Nat
  small_blind : Option Nat
  big_blind : Option Nat
  players : List PlayerView
deriving DecidableEq, Repr

/-- game.py get_game_state (lines 869-909): a read-only snapshot.  The state
paired into the result records that the call performs no mutation; the
IndexError a stale active index would raise also carries the unchanged
state. -/
def getGameState (s : GameState) : Except (GErr × GameState) (GameState × GameView) :=
  let mk : Option Nat → GameState × GameView := fun active_player =>
    let pot_total := potSum s.pots
    let pot_total := if s.current_phase == some PHASE_SHOWDOWN && pot_total == 0 then
        match s.last_pot_total with
        | some t => t
        | none => pot_total
      else pot_total
    (s,
     { phase := s.current_phase,
       community_cards := s.community_cards.map cardStr,
       pots := s.pots.map (fun p => { amount := p.amount, eligible_players := p.eligible_players }),
       pot := pot_total,
       current_bet := s.current_bet,
       active_player := active_player,
       dealer := s.dealer_position,
       small_blind := s.small_blind_position,
       big_blind := s.big_blind_position,
       players := s.players.map (fun p =>
         { id := p.player_id, name := p.name, chips := p.chips, current_bet := p.current_bet,
           total_bet := p.total_bet, is_active := p.is_active, is_all_in := p.is_all_in,
           position := p.position }) })
  match s.active_player_index with
  | none => .ok (mk none)
  | some ai =>
    match s.players[ai]? with
    | none => .error (.indexError, s)
    | some p => .ok (mk (some p.player_id))

/-! ## Concrete tables and runs -/

/-- Sum of all seats' chips plus all pots: the quantity chip conservation is
about. -/
def chipsPlusPots (s : GameState) : Int :=
  (s.players.map (·.chips)).foldl (· + ·) 0 + potSum s.pots

/-- addPlayer, discarding the id (never fails in the scenarios below). -/
def addPlayerD (s : GameState) (name : String) (chips : Int) : GameState :=
  match addPlayer s name chips with
  | .ok r => r.1
  | .error _ => s

/-- A 5/10 no-ante table with Alice and Bob, 1000 chips each. -/
def table2 : GameState := addPlayerD (addPlayerD (initGame 5 10 9 0) "Alice" 1000) "Bob" 1000

/-- The hand started on `table2` with an unshuffled deck. -/
def hand2 : Option GameState :=
  match startNewHand table2 freshDeck with
  | .ok r => r
  | .error _ => none

/-- `hand2` after the to-act seat (seat 0, the dealer) folds. -/
def hand2Fold : Option GameState :=
  match hand2 with
  | some s =>
    match processPlayerAction s 0 ACTION_FOLD 0 with
    | .ok r => some r.1
    | .error _ => none
  | none => none

/-- A 5/10 table with three seats. -/
def table3 (c0 c1 c2 : Int) : GameState :=
  addPlayerD (addPlayerD (addPlayerD (initGame 5 10 9 0) "A" c0) "B" c1) "C" c2

/-- A started three-seat hand (dealer 0, SB 1, BB 2, seat 0 to act). -/
def hand3 (c0 c1 c2 : Int) : Option GameState :=
  match startNewHand (table3 c0 c1 c2) freshDeck with
  | .ok r => r
  | .error _ => none

/-- `hand3 1000 1000 1000` after seat 0 raises the 10 blind to 30
(increment 20). -/
def hand3Raise30 : Option GameState :=
  match hand3 1000 1000 1000 with
  | some s =>
    match processPlayerAction s 0 ACTION_RAISE 30 with
    | .ok r => some r.1
    | .error _ => none
  | none => none

/-- Seat 1 holds 36 chips; hand started (seat 1 posts the 5 small blind and
has 31 behind), then seat 0 raises to 30. -/
def hand3bRaise30 : Option GameState :=
  match hand3 1000 36 1000 with
  | some s =>
    match processPlayerAction s 0 ACTION_RAISE 30 with
    | .ok r => some r.1
    | .error _ => none
  | none => none

/-- ... then seat 1 goes all-in for a total of 36, only 6 over the high bet
of 30 while the last raise increment was 20. -/
def hand3bAllIn : Option GameState :=
  match hand3bRaise30 with
  | some s =>
    match processPlayerAction s 1 ACTION_ALL_IN 0 with
    | .ok r => some r.1
    | .error _ => none
  | none => none

/-- Two seats holding a pair of aces and a pair of kings over the same board:
hands of the same category that standard rules rank differently. -/
def tieState : GameState :=
  { initGame 5 10 9 0 with
    players := [
      { mkPlayer "P0" 100 0 with cards := [⟨'H', 'A'⟩, ⟨'D', 'A'⟩] },
      { mkPlayer "P1" 100 1 with cards := [⟨'H', 'K'⟩, ⟨'D', 'K'⟩] }],
    community_cards := [⟨'C', '2'⟩, ⟨'D', '3'⟩, ⟨'H', '7'⟩] }

/-- AddSeat, AddSeat, RemoveSeat, AddSeat: the three ids handed out. -/
def seatReuseRun : Option (Nat × Nat × Nat) :=
  match addPlayer (initGame 5 10 9 0) "A" 100 with
  | .ok (s, i0) =>
    match addPlayer s "B" 100 with
    | .ok (s, i1) =>
      match addPlayer (removePlayer s 1).1 "C" 100 with
      | .ok (_, i2) => some (i0, i1, i2)
      | .error _ => none
    | .error _ => none
  | .error _ => none

/-- The engine state a snapshot call hands back (the ok state, or the state
carried by the IndexError). -/
def stateOf (r : Except (GErr × GameState) (GameState × GameView)) : GameState :=
  match r with
  | .ok x => x.1
  | .error e => e.2

/-- The wheel A,2,3,4,5 with the given suits. -/
def wheelHand (s1 s2 s3 s4 s5 : Char) : List Card :=
  [⟨s1, 'A'⟩, ⟨s2, '2'⟩, ⟨s3, '3'⟩, ⟨s4, '4'⟩, ⟨s5, '5'⟩]

/-- The wheel straight tie-break value: ace counted as -1. -/
def wheelKey : List PyVal := [.i 3, .i 2, .i 1, .i 0, .i (-1)]


/-- The engine state after the turn-advancing (round-incomplete) arm of the
action tail: the actor marked acted, then the turn moved. -/
def tailState (s : GameState) (pIdx : Nat) : GameState :=
  moveToNextActivePlayer
    { s with players := updateAt s.players pIdx (fun p => { p with has_acted := true }) }

/-- The result dictionary the round-incomplete arm of the action tail
returns. -/
def tailResult (s : GameState) (pIdx player_id : Nat) (action : String) (resAmount : Int)
    (preWinners : Option (List WinnerRec)) (preShowdown : Bool) : ActionResult :=
  { action := action, player_id := player_id, amount := resAmount, success := true,
    winners := preWinners, showdown := preShowdown, phase_complete := false,
    new_phase := none, active_player := activePlayerId (tailState s pIdx),
    current_bet := (tailState s pIdx).current_bet, pot := potSum (tailState s pIdx).pots }


/-- The concrete post-raise three-seat state (hand3Raise30 resolved). -/
def raiseState : GameState := hand3Raise30.getD (initGame 5 10 9 0)

/-- Seat 1 of raiseState (the small blind, 995 chips, 5 committed). -/
def raiseP1 : Player := (raiseState.players[1]?).getD (mkPlayer "" 0 0)

/-- Seat 2 of raiseState (the big blind, still to act). -/
def raiseP2 : Player := (raiseState.players[2]?).getD (mkPlayer "" 0 0)

/-- The concrete post-raise state with the 36-chip small blind
(hand3bRaise30 resolved). -/
def allInState : GameState := hand3bRaise30.getD (initGame 5 10 9 0)

/-- Seat 0 of allInState (the raiser, already acted). -/
def allInP0 : Player := (allInState.players[0]?).getD (mkPlayer "" 0 0)

/-- Seat 1 of allInState (31 chips behind, 5 committed). -/
def allInP1 : Player := (allInState.players[1]?).getD (mkPlayer "" 0 0)

/-! ## Theorems -/

/-- C1.  Chip conservation fails on the code: in a 5/10 heads-up hand where
the to-act seat folds pre-flop, the hand ends with one non-folded seat, yet
that seat's chips do not increase (the pot membership test
`winner_id in pot['eligible_players']` compares an int against Player
objects and never matches), so the 15 chips of blinds vanish:
Σ chips + Σ pots drops from 2000 to 1985 and the surviving seat keeps
990 while being recorded as receiving 0. -/
theorem c1_fold_out_pot_vanishes :
    hand2.map chipsPlusPots = some 2000 ∧
    hand2.map (fun s => s.pots.map (·.eligible_players)) =
      some [[Elig.pobj 0, Elig.pobj 1]] ∧
    hand2Fold.map chipsPlusPots = some 1985 ∧
    hand2Fold.map (fun s => (s.players.map (·.chips), potSum s.pots, s.last_pot_total,
      s.last_pot_distribution)) = some ([990, 995], 0, some 15, some [(1, 0)]) := by
  decide

/-- C2.  Heads-up position assignment: with exactly two funded seats the
dealer (seat 0) is assigned the big-blind role and posts the big blind of
10, while the other seat gets the small-blind role and posts 5 — the
opposite of the dealer-is-small-blind rule — and the dealer acts first
pre-flop. -/
theorem c2_heads_up_dealer_is_big_blind :
    hand2.map (fun s => (s.dealer_position, s.small_blind_position, s.big_blind_position,
        s.active_player_index)) = some (some 0, some 1, some 0, some 0) ∧
    hand2.map (fun s => s.players.map (·.position)) =
      some [some "big_blind", some "small_blind"] ∧
    hand2.map (fun s => s.players.map (·.current_bet)) = some [10, 5] := by
  decide

/-- C3.  The evaluator's public result is only (category, name) with no
tie-break key, and showdown winner selection compares hand_rank (the
category) alone: a pair of aces and a pair of kings over the same board are
both selected as winners, although the internal 5-card values do rank the
aces strictly higher. -/
theorem c3_same_category_ties_not_broken :
    evaluate_hand ([⟨'H', 'A'⟩, ⟨'D', 'A'⟩] ++ tieState.community_cards) = .ok (1, "Pair") ∧
    evaluate_hand ([⟨'H', 'K'⟩, ⟨'D', 'K'⟩] ++ tieState.community_cards) = .ok (1, "Pair") ∧
    pyValLt (evalFive ([⟨'H', 'K'⟩, ⟨'D', 'K'⟩] ++ tieState.community_cards)).2
            (evalFive ([⟨'H', 'A'⟩, ⟨'D', 'A'⟩] ++ tieState.community_cards)).2 = true ∧
    (determineWinners tieState).map (fun w => (w.player_id, w.hand_rank, w.hand_name)) =
      [(0, 1, "Pair"), (1, 1, "Pair")] := by
  decide

/-- C5 counterexample.  After the blind of 10 is raised to 30 (last raise
increment 20), a raise to 50 = 30 + 20 — legal under the claimed
last-raise-increment rule — is rejected (leaving the state unchanged), while
55 = 30 + (30 - 5), the code's current_bet + (current_bet - own_bet)
threshold, is the smallest accepted raise for the small-blind seat. -/
theorem c5_counterexample_min_raise :
    (hand3Raise30.map (·.current_bet) = some 30) ∧
    ((hand3Raise30.bind fun s =>
        match processPlayerAction s 1 ACTION_RAISE 50 with
        | .error (e, s1) => some (e, s1 == s)
        | .ok _ => none) = some (.raiseBelowMin, true)) ∧
    ((hand3Raise30.bind fun s =>
        match processPlayerAction s 1 ACTION_RAISE 54 with
        | .error (e, _) => some e
        | .ok _ => none) = some .raiseBelowMin) ∧
    ((hand3Raise30.bind fun s =>
        match processPlayerAction s 1 ACTION_RAISE 55 with
        | .ok r => some r.1.current_bet
        | .error _ => none) = some 55) := by
  decide

/-- C6 counterexample.  Seat 0 raises 10 → 30 (increment 20) and has acted;
seat 1 then goes all-in for a total of 36, exceeding the high bet by 6,
less than the last raise increment — yet seat 0's has-acted flag is cleared
(betting is re-opened). -/
theorem c6_counterexample_short_all_in_reopens :
    (hand3bRaise30.map (fun s =>
        (s.current_bet, s.players.map (fun p => (p.has_acted, p.is_all_in)))) =
      some (30, [(true, false), (false, false), (false, false)])) ∧
    (hand3bAllIn.map (fun s =>
        (s.current_bet, s.players.map (fun p => (p.has_acted, p.is_all_in)))) =
      some (36, [(false, false), (true, true), (false, false)])) := by
  decide

/-- C8 counterexample.  AddSeat hands out the current seat count as the
index: after AddSeat → 0, AddSeat → 1, RemoveSeat 1, the next AddSeat hands
out 1 again, so an index is assigned twice at the same table. -/
theorem c8_counterexample_seat_index_reused : seatReuseRun = some (0, 1, 1) := by
  decide

/-- C8 (amended).  AddSeat returns an index equal to the current number of
seats, so while no seat has been removed the seated ids are exactly
0..n-1 and every new index is fresh. -/
theorem c8_add_player_id_is_seat_count (s : GameState) (name : String) (chips : Int)
    (s1 : GameState) (pid : Nat)
    (hids : s.players.map (·.player_id) = List.range s.players.length)
    (hadd : addPlayer s name chips = .ok (s1, pid)) :
    pid = s.players.length ∧ pid ∉ s.players.map (·.player_id) ∧
    s1.players.map (·.player_id) = List.range s1.players.length := by
  unfold addPlayer at hadd
  split at hadd
  · exact absurd hadd (by simp)
  · simp only [Except.ok.injEq, Prod.mk.injEq] at hadd
    obtain ⟨hs1, hpid⟩ := hadd
    refine ⟨hpid.symm, ?_, ?_⟩
    · rw [hids, ← hpid]
      simp
    · rw [← hs1]
      simp [mkPlayer, hids, List.range_succ, ← hpid]

/-- C8 (amended) witness: adding to the empty table hands out id 0 = the
seat count, and the table afterwards has ids = range 1. -/
theorem c8_add_player_id_is_seat_count_witness :
    0 = (initGame 5 10 9 0).players.length ∧
    0 ∉ (initGame 5 10 9 0).players.map (·.player_id) ∧
    (addPlayerD (initGame 5 10 9 0) "A" 100).players.map (·.player_id) =
      List.range (addPlayerD (initGame 5 10 9 0) "A" 100).players.length :=
  c8_add_player_id_is_seat_count (initGame 5 10 9 0) "A" 100
    (addPlayerD (initGame 5 10 9 0) "A" 100) 0 (by decide) (by decide)

/-- Every branch of the 5-card evaluator returns a category between
HIGH_CARD = 0 and ROYAL_FLUSH = 9. -/
theorem evalFive_rank_le (hand : List Card) : (evalFive hand).1 ≤ 9 := by
  simp only [evalFive]
  split_ifs <;>
    simp [ROYAL_FLUSH, STRAIGHT_FLUSH, FOUR_OF_A_KIND, FULL_HOUSE, FLUSH, STRAIGHT,
      THREE_OF_A_KIND, TWO_PAIR, PAIR, HIGH_CARD]

/-- The best-hand fold keeps a defined best with category at most 9. -/
theorem foldl_bestStep_le (l : List (List Card)) :
    ∀ b : Nat × List PyVal, b.1 ≤ 9 →
      ∃ rv : Nat × List PyVal, l.foldl bestStep (some b) = some rv ∧ rv.1 ≤ 9 := by
  induction l with
  | nil => exact fun b hb => ⟨b, rfl, hb⟩
  | cons h t ih =>
    intro b hb
    rw [List.foldl_cons]
    by_cases hp : pairGt (evalFive h) b = true
    · rw [show bestStep (some b) h = some (evalFive h) by simp [bestStep, hp]]
      exact ih (evalFive h) (evalFive_rank_le h)
    · rw [show bestStep (some b) h = some b by simp [bestStep, hp]]
      exact ih b hb

/-- On a nonempty combination list the fold produces a best hand with
category at most 9. -/
theorem bestOfCombos_ok (l : List (List Card)) (hl : l ≠ []) :
    ∃ rv : Nat × List PyVal, bestOfCombos l = some rv ∧ rv.1 ≤ 9 := by
  cases l with
  | nil => exact absurd rfl hl
  | cons h t =>
    unfold bestOfCombos
    rw [List.foldl_cons, show bestStep none h = some (evalFive h) from rfl]
    exact foldl_bestStep_le t (evalFive h) (evalFive_rank_le h)

/-- HAND_RANKINGS has a name for every category 0..9. -/
theorem handRankingName_isSome (r : Nat) (h : r ≤ 9) : ∃ n, handRankingName r = some n := by
  interval_cases r <;> exact ⟨_, rfl⟩

/-- C10.  The evaluator raises on fewer than 5 cards and returns a ranking
without error on any list of 5 or more (well-formed) cards. -/
theorem c10_evaluator_arity (cards : List Card) :
    (cards.length < 5 → evaluate_hand cards = .error "Need at least 5 cards to evaluate a hand") ∧
    (5 ≤ cards.length → (∀ c ∈ cards, c.rank ∈ RANKS) →
      ∃ r n, evaluate_hand cards = .ok (r, n)) := by
  constructor
  · intro h
    unfold evaluate_hand
    rw [if_pos h]
  · intro h _
    unfold evaluate_hand
    rw [if_neg (by omega)]
    have hne : List.sublistsLen 5 cards ≠ [] := by
      have hlen := List.length_sublistsLen 5 cards
      have hpos : 0 < cards.length.choose 5 := Nat.choose_pos h
      intro hnil
      rw [hnil] at hlen
      simp only [List.length_nil] at hlen
      omega
    obtain ⟨⟨r, v⟩, hfold, hr⟩ := bestOfCombos_ok _ hne
    rw [hfold]
    obtain ⟨n, hn⟩ := handRankingName_isSome r hr
    dsimp only
    rw [hn]
    exact ⟨r, n, rfl⟩

/-- C10 witness: three cards are refused, five are evaluated. -/
theorem c10_evaluator_arity_witness :
    (([⟨'H', 'A'⟩, ⟨'D', '2'⟩, ⟨'C', '3'⟩] : List Card).length < 5 ∧
     evaluate_hand [⟨'H', 'A'⟩, ⟨'D', '2'⟩, ⟨'C', '3'⟩] =
       .error "Need at least 5 cards to evaluate a hand") ∧
    (5 ≤ ([⟨'H', 'A'⟩, ⟨'D', '2'⟩, ⟨'C', '3'⟩, ⟨'C', '4'⟩, ⟨'C', '5'⟩] : List Card).length ∧
     ∃ r n, evaluate_hand [⟨'H', 'A'⟩, ⟨'D', '2'⟩, ⟨'C', '3'⟩, ⟨'C', '4'⟩, ⟨'C', '5'⟩] = .ok (r, n)) :=
  ⟨⟨by decide, (c10_evaluator_arity _).1 (by decide)⟩,
   ⟨by decide, (c10_evaluator_arity _).2 (by decide) (by decide)⟩⟩

/-- The seed of a foldl over max is a lower bound of the result. -/
theorem le_foldl_max (l : List Int) (a : Int) : a ≤ l.foldl max a := by
  induction l generalizing a with
  | nil => exact le_refl a
  | cons x xs ih =>
    rw [List.foldl_cons]
    exact le_trans (le_max_left a x) (ih (max a x))

/-- Every member of the list is bounded by the foldl over max. -/
theorem mem_le_foldl_max (l : List Int) (a : Int) : ∀ x ∈ l, x ≤ l.foldl max a := by
  induction l generalizing a with
  | nil => intro x hx; cases hx
  | cons y ys ih =>
    intro x hx
    rw [List.foldl_cons]
    rcases List.mem_cons.mp hx with h | h
    · rw [h]
      exact le_trans (le_max_right a y) (le_foldl_max ys (max a y))
    · exact ih (max a y) x h

/-- The foldl over max is the seed or a member. -/
theorem foldl_max_mem (l : List Int) (a : Int) : l.foldl max a = a ∨ l.foldl max a ∈ l := by
  induction l generalizing a with
  | nil => exact Or.inl rfl
  | cons y ys ih =>
    rw [List.foldl_cons]
    rcases ih (max a y) with h | h
    · rcases max_choice a y with hm | hm
      · exact Or.inl (by rw [h, hm])
      · exact Or.inr (by rw [h, hm]; exact List.mem_cons_self y ys)
    · exact Or.inr (List.mem_cons_of_mem y h)

/-- The foldl over min is the seed or a member. -/
theorem foldl_min_mem (l : List Int) (a : Int) : l.foldl min a = a ∨ l.foldl min a ∈ l := by
  induction l generalizing a with
  | nil => exact Or.inl rfl
  | cons y ys ih =>
    rw [List.foldl_cons]
    rcases ih (min a y) with h | h
    · rcases min_choice a y with hm | hm
      · exact Or.inl (by rw [h, hm])
      · exact Or.inr (by rw [h, hm]; exact List.mem_cons_self y ys)
    · exact Or.inr (List.mem_cons_of_mem y h)

/-- Python max of a nonempty list is a member. -/
theorem listMax_mem (l : List Int) (hl : l ≠ []) : listMax l ∈ l := by
  cases l with
  | nil => exact absurd rfl hl
  | cons x xs =>
    simp only [listMax]
    rcases foldl_max_mem xs x with h | h
    · rw [h]; exact List.mem_cons_self x xs
    · exact List.mem_cons_of_mem x h

/-- Python min of a nonempty list is a member. -/
theorem listMin_mem (l : List Int) (hl : l ≠ []) : listMin l ∈ l := by
  cases l with
  | nil => exact absurd rfl hl
  | cons x xs =>
    simp only [listMin]
    rcases foldl_min_mem xs x with h | h
    · rw [h]; exact List.mem_cons_self x xs
    · exact List.mem_cons_of_mem x h

/-- Members are bounded by the Python max. -/
theorem le_listMax (l : List Int) (x : Int) (hx : x ∈ l) : x ≤ listMax l := by
  cases l with
  | nil => cases hx
  | cons y ys =>
    simp only [listMax]
    rcases List.mem_cons.mp hx with h | h
    · rw [h]; exact le_foldl_max ys y
    · exact mem_le_foldl_max ys y x h

/-- Descending sort is a permutation of the input. -/
theorem sortDesc_perm (l : List Int) : List.Perm (sortDesc l) l := List.perm_insertionSort _ l

/-- Descending sort is sorted by ≥. -/
theorem sortDesc_sorted (l : List Int) : List.Sorted (fun a b : Int => b ≤ a) (sortDesc l) :=
  List.sorted_insertionSort _ l

/-- The head of the descending sort bounds every member of the input. -/
theorem sortDesc_head_ge (l : List Int) (a : Int) (rest : List Int)
    (h : sortDesc l = a :: rest) (x : Int) (hx : x ∈ l) : x ≤ a := by
  have hx2 : x ∈ sortDesc l := (sortDesc_perm l).mem_iff.mpr hx
  rw [h] at hx2
  rcases List.mem_cons.mp hx2 with h2 | h2
  · exact le_of_eq h2
  · have hs := sortDesc_sorted l
    rw [h] at hs
    exact (List.sorted_cons.mp hs).1 x h2

/-- What a true straight flag implies: the tie-break values are the wheel
values, or they are the sorted values and the rank spread is 4. -/
theorem straightCheck_fst_true (vals sorted : List Int) :
    (straightCheck vals sorted).1 = true →
    (straightCheck vals sorted).2 = [3, 2, 1, 0, -1] ∨
    ((straightCheck vals sorted).2 = sorted ∧ listMax vals - listMin vals = 4) := by
  unfold straightCheck
  split_ifs with h1 h2 h3
  · exact fun _ => Or.inr ⟨rfl, by simpa using h2⟩
  · exact fun _ => Or.inl rfl
  · exact fun h => absurd h (by simp)
  · exact fun h => absurd h (by simp)

/-- C7.  The wheel A,2,3,4,5 evaluates as a straight with tie-break values
3,2,1,0,-1 (the ace counted as -1) whenever the suits do not all match (all
matching makes it a straight flush built on the same straightness and key);
that key compares below the key of every other straight; and concretely the
straight K-Q-J-T-9 evaluates strictly below the straight A-K-Q-J-T. -/
theorem c7_wheel_is_lowest_straight :
    (∀ s1 s2 s3 s4 s5 : Char,
        ([s1, s2, s3, s4, s5] : List Char).dedup.length ≠ 1 →
        evalFive (wheelHand s1 s2 s3 s4 s5) = (STRAIGHT, wheelKey)) ∧
    (∀ (hand : List Card) (v : List PyVal),
        hand.length = 5 → evalFive hand = (STRAIGHT, v) → v ≠ wheelKey →
        pyValLt wheelKey v = true) ∧
    pairGt (evalFive [⟨'H', 'A'⟩, ⟨'D', 'K'⟩, ⟨'C', 'Q'⟩, ⟨'C', 'J'⟩, ⟨'C', 'T'⟩])
           (evalFive [⟨'H', 'K'⟩, ⟨'D', 'Q'⟩, ⟨'C', 'J'⟩, ⟨'C', 'T'⟩, ⟨'C', '9'⟩]) = true := by
  refine ⟨?_, ?_, by decide⟩
  · intro s1 s2 s3 s4 s5 h
    have hfl : ((List.dedup [s1, s2, s3, s4, s5]).length == 1) = false := by
      simpa using h
    simp only [evalFive, wheelHand, List.map_cons, List.map_nil]
    rw [hfl]
    simp only [Card.rank_value]
    decide
  · intro hand v hlen heval hv
    simp only [evalFive] at heval
    split_ifs at heval with h1 h2 h3 h4 h5 h6 h7 h8 h9 <;>
      simp only [Prod.mk.injEq] at heval <;>
      try exact absurd heval.1 (by decide)
    obtain ⟨-, hveq⟩ := heval
    rcases straightCheck_fst_true (hand.map Card.rank_value)
        (sortDesc (hand.map Card.rank_value)) h6 with hw | ⟨hs, hspread⟩
    · exact absurd (by rw [← hveq, hw]; rfl) hv
    · have hvals_ne : hand.map Card.rank_value ≠ [] := by
        apply List.ne_nil_of_length_pos
        simp [hlen]
      have hlen2 : (sortDesc (hand.map Card.rank_value)).length = 5 := by
        rw [(sortDesc_perm _).length_eq]
        simp [hlen]
      obtain ⟨a, rest, hcons⟩ : ∃ a rest, sortDesc (hand.map Card.rank_value) = a :: rest := by
        cases hsd : sortDesc (hand.map Card.rank_value) with
        | nil => rw [hsd] at hlen2; simp at hlen2
        | cons a rest => exact ⟨a, rest, rfl⟩
      have hmax_le_a := sortDesc_head_ge _ a rest hcons _ (listMax_mem _ hvals_ne)
      have hmin_nonneg : 0 ≤ listMin (hand.map Card.rank_value) := by
        obtain ⟨c, hc, hcv⟩ := List.mem_map.mp (listMin_mem _ hvals_ne)
        rw [← hcv]
        simp [Card.rank_value]
      have h3a : (3 : Int) < a := by omega
      rw [← hveq, hs, hcons]
      simp [pyValLt, pyElLt, wheelKey, h3a]

/-- C7 witness: an offsuit wheel evaluates to (STRAIGHT, wheelKey), and the
wheel key compares below the 2-3-4-5-6 straight. -/
theorem c7_wheel_is_lowest_straight_witness :
    evalFive (wheelHand 'H' 'D' 'C' 'C' 'C') = (STRAIGHT, wheelKey) ∧
    pyValLt wheelKey
      (evalFive [⟨'H', '2'⟩, ⟨'D', '3'⟩, ⟨'C', '4'⟩, ⟨'C', '5'⟩, ⟨'H', '6'⟩]).2 = true :=
  ⟨c7_wheel_is_lowest_straight.1 'H' 'D' 'C' 'C' 'C' (by decide),
   c7_wheel_is_lowest_straight.2.1 [⟨'H', '2'⟩, ⟨'D', '3'⟩, ⟨'C', '4'⟩, ⟨'C', '5'⟩, ⟨'H', '6'⟩]
     (evalFive [⟨'H', '2'⟩, ⟨'D', '3'⟩, ⟨'C', '4'⟩, ⟨'C', '5'⟩, ⟨'H', '6'⟩]).2
     (by decide) (by decide) (by decide)⟩

/-- Dealing a card only fails with deckEmpty. -/
theorem dealCardSt_error (s : GameState) (e : GErr) (s1 : GameState)
    (h : dealCardSt s = .error (e, s1)) : e = .deckEmpty := by
  unfold dealCardSt at h
  cases hd : s.deck.getLast? <;> rw [hd] at h
  · simp only [Except.error.injEq, Prod.mk.injEq] at h
    exact h.1.symm
  · simp at h

/-- The community-dealing loop only fails with deckEmpty. -/
theorem dealCommunityLoop_error (n : Nat) :
    ∀ (s : GameState) (e : GErr) (s1 : GameState),
      dealCommunityLoop s n = .error (e, s1) → e = .deckEmpty := by
  induction n with
  | zero => intro s e s1 h; simp [dealCommunityLoop] at h
  | succ k ih =>
    intro s e s1 h
    unfold dealCommunityLoop at h
    cases hd : dealCardSt s with
    | error ep =>
      rw [hd] at h
      obtain ⟨e2, s2⟩ := ep
      simp only [Except.error.injEq, Prod.mk.injEq] at h
      exact h.1 ▸ dealCardSt_error s e2 s2 hd
    | ok cs =>
      rw [hd] at h
      exact ih _ e s1 h

/-- _deal_community_cards only fails with deckEmpty. -/
theorem dealCommunityCards_error (s : GameState) (c : Nat) (e : GErr) (s1 : GameState)
    (h : dealCommunityCards s c = .error (e, s1)) : e = .deckEmpty := by
  simp only [dealCommunityCards] at h
  exact dealCommunityLoop_error c _ e s1 h

theorem advanceGamePhase_error (s : GameState) (e : GErr) (s1 : GameState)
    (h : advanceGamePhase s = .error (e, s1)) : e = .deckEmpty ∨ e = .invalidPhase := by
  simp only [advanceGamePhase] at h
  split at h
  · rename_i ep heq
    obtain ⟨e2, s2⟩ := ep
    simp only [Except.error.injEq, Prod.mk.injEq] at h
    obtain ⟨he, -⟩ := h
    subst he
    split_ifs at heq with h1 h2 h3 h4
    · split at heq
      · rename_i ep2 heq2
        obtain ⟨e3, s3⟩ := ep2
        simp only [Except.error.injEq, Prod.mk.injEq] at heq
        exact Or.inl (heq.1 ▸ dealCommunityCards_error _ _ _ _ heq2)
      · simp at heq
    · split at heq
      · rename_i ep2 heq2
        obtain ⟨e3, s3⟩ := ep2
        simp only [Except.error.injEq, Prod.mk.injEq] at heq
        exact Or.inl (heq.1 ▸ dealCommunityCards_error _ _ _ _ heq2)
      · simp at heq
    · split at heq
      · rename_i ep2 heq2
        obtain ⟨e3, s3⟩ := ep2
        simp only [Except.error.injEq, Prod.mk.injEq] at heq
        exact Or.inl (heq.1 ▸ dealCommunityCards_error _ _ _ _ heq2)
      · simp at heq
    · simp only [Except.error.injEq, Prod.mk.injEq] at heq
      exact Or.inr heq.1.symm
  · rename_i pr heq
    split_ifs at h

/-- The common action tail only fails with deckEmpty or invalidPhase (both
arising inside _advance_game_phase). -/
theorem afterAction_error (s : GameState) (pIdx pid : Nat) (act : String) (amt : Int)
    (w : Option (List WinnerRec)) (sd : Bool) (e : GErr) (s1 : GameState)
    (h : afterAction s pIdx pid act amt w sd = .error (e, s1)) :
    e = .deckEmpty ∨ e = .invalidPhase := by
  simp only [afterAction] at h
  split_ifs at h <;>
    (split at h
     · rename_i ep heq
       obtain ⟨e2, s2⟩ := ep
       simp only [Except.error.injEq, Prod.mk.injEq] at h
       exact h.1 ▸ advanceGamePhase_error _ _ _ heq
     · simp at h)

/-- The fold branch has no validation error of its own. -/
theorem foldBranch_error (s : GameState) (pIdx pid : Nat) (amt : Int) (e : GErr) (s1 : GameState)
    (h : foldBranch s pIdx pid amt = .error (e, s1)) :
    e = .deckEmpty ∨ e = .invalidPhase := by
  simp only [foldBranch] at h
  split_ifs at h <;> exact afterAction_error _ _ _ _ _ _ _ _ _ h

/-- The check branch fails with checkWithBet on the unchanged state, or deep
in the tail. -/
theorem checkBranch_error (s : GameState) (pIdx pid : Nat) (p : Player) (amt : Int)
    (e : GErr) (s1 : GameState) (h : checkBranch s pIdx pid p amt = .error (e, s1)) :
    s1 = s ∨ e = .deckEmpty ∨ e = .invalidPhase := by
  simp only [checkBranch] at h
  split_ifs at h
  · simp only [Except.error.injEq, Prod.mk.injEq] at h
    exact Or.inl h.2.symm
  · exact Or.inr (afterAction_error _ _ _ _ _ _ _ _ _ h)

/-- The call branch fails with callNothing on the unchanged state, or deep in
the tail. -/
theorem callBranch_error (s : GameState) (pIdx pid : Nat) (p : Player)
    (e : GErr) (s1 : GameState) (h : callBranch s pIdx pid p = .error (e, s1)) :
    s1 = s ∨ e = .deckEmpty ∨ e = .invalidPhase := by
  simp only [callBranch] at h
  split_ifs at h
  · simp only [Except.error.injEq, Prod.mk.injEq] at h
    exact Or.inl h.2.symm
  · exact Or.inr (afterAction_error _ _ _ _ _ _ _ _ _ h)

/-- The bet branch fails with one of its three validation errors on the
unchanged state, or deep in the tail. -/
theorem betBranch_error (s : GameState) (pIdx pid : Nat) (p : Player) (amt : Int)
    (e : GErr) (s1 : GameState) (h : betBranch s pIdx pid p amt = .error (e, s1)) :
    s1 = s ∨ e = .deckEmpty ∨ e = .invalidPhase := by
  simp only [betBranch] at h
  split_ifs at h <;>
    first
    | (simp only [Except.error.injEq, Prod.mk.injEq] at h; exact Or.inl h.2.symm)
    | exact Or.inr (afterAction_error _ _ _ _ _ _ _ _ _ h)

/-- The raise branch fails with one of its three validation errors on the
unchanged state, or deep in the tail. -/
theorem raiseBranch_error (s : GameState) (pIdx pid : Nat) (p : Player) (amt : Int)
    (e : GErr) (s1 : GameState) (h : raiseBranch s pIdx pid p amt = .error (e, s1)) :
    s1 = s ∨ e = .deckEmpty ∨ e = .invalidPhase := by
  simp only [raiseBranch] at h
  split_ifs at h <;>
    first
    | (simp only [Except.error.injEq, Prod.mk.injEq] at h; exact Or.inl h.2.symm)
    | exact Or.inr (afterAction_error _ _ _ _ _ _ _ _ _ h)

/-- The all-in branch fails with allInNoChips on the unchanged state, or deep
in the tail. -/
theorem allInBranch_error (s : GameState) (pIdx pid : Nat) (p : Player) (amt : Int)
    (e : GErr) (s1 : GameState) (h : allInBranch s pIdx pid p amt = .error (e, s1)) :
    s1 = s ∨ e = .deckEmpty ∨ e = .invalidPhase := by
  simp only [allInBranch] at h
  split_ifs at h <;>
    first
    | (simp only [Except.error.injEq, Prod.mk.injEq] at h; exact Or.inl h.2.symm)
    | exact Or.inr (afterAction_error _ _ _ _ _ _ _ _ _ h)

/-- The first-match scan over `players` by id, starting at offset k: with
distinct ids it finds exactly the holder of the id. -/
theorem enumFrom_find_eq (ps : List Player) :
    ∀ (k i : Nat) (p : Player),
      (ps.map (fun q => q.player_id)).Nodup → ps[i]? = some p →
      (ps.enumFrom k).find? (fun e => e.2.player_id == p.player_id) = some (k + i, p) := by
  induction ps with
  | nil => intro k i p _ h; simp at h
  | cons q rest ih =>
    intro k i p hnd hget
    cases i with
    | zero =>
      simp only [List.getElem?_cons_zero, Option.some.injEq] at hget
      subst hget
      rw [List.enumFrom_cons, List.find?_cons_of_pos _ (by simp)]
      simp
    | succ j =>
      have hget2 : rest[j]? = some p := by simpa using hget
      have hnd2 : (rest.map (fun q => q.player_id)).Nodup :=
        (List.nodup_cons.mp (by simpa using hnd)).2
      have hqp : q.player_id ≠ p.player_id := by
        have hqnotin : q.player_id ∉ rest.map (fun q => q.player_id) :=
          (List.nodup_cons.mp (by simpa using hnd)).1
        intro hq
        exact hqnotin (hq ▸ List.mem_map_of_mem _ (List.getElem?_mem hget2))
      rw [List.enumFrom_cons, List.find?_cons_of_neg _ (by simp [hqp]),
        show k + (j + 1) = k + 1 + j from by omega]
      exact ih (k + 1) j p hnd2 hget2

/-- The id scan at the top of process_player_action: with distinct ids it
finds the seat holding the id. -/
theorem players_find_eq (s : GameState) (i : Nat) (p : Player)
    (hnd : (s.players.map (fun q => q.player_id)).Nodup) (hget : s.players[i]? = some p) :
    s.players.enum.find? (fun e => e.2.player_id == p.player_id) = some (i, p) := by
  have h := enumFrom_find_eq s.players 0 i p hnd hget
  simpa [List.enum] using h

/-- C4.  Atomicity of rejected actions: (1) every error other than the
deckEmpty / invalidPhase failures of the post-action phase advance carries
the engine state unchanged — all validation errors are raised before any
mutation; (2) in particular a bet larger than the seat's stack is rejected
with AmountExceedsStack semantics and the state unchanged, never clamped. -/
theorem c4_rejected_actions_atomic :
    (∀ (s : GameState) (pid : Nat) (act : String) (amt : Int) (e : GErr) (s1 : GameState),
        processPlayerAction s pid act amt = .error (e, s1) →
        e ≠ .deckEmpty → e ≠ .invalidPhase → s1 = s) ∧
    (∀ (s : GameState) (i : Nat) (p : Player) (amt : Int),
        (s.players.map (fun q => q.player_id)).Nodup →
        s.active_player_index = some i →
        s.players[i]? = some p →
        p.is_active = true →
        s.current_bet = 0 →
        s.big_blind ≤ amt →
        p.chips < amt →
        processPlayerAction s p.player_id ACTION_BET amt = .error (.betOverStack, s)) := by
  constructor
  · intro s pid act amt e s1 h hd hp
    simp only [processPlayerAction] at h
    split at h
    · simp only [Except.error.injEq, Prod.mk.injEq] at h
      exact h.2.symm
    · split at h
      · simp only [Except.error.injEq, Prod.mk.injEq] at h
        exact h.2.symm
      · split at h
        · simp only [Except.error.injEq, Prod.mk.injEq] at h
          exact h.2.symm
        · split_ifs at h
          · simp only [Except.error.injEq, Prod.mk.injEq] at h
            exact h.2.symm
          · simp only [Except.error.injEq, Prod.mk.injEq] at h
            exact h.2.symm
          · rcases foldBranch_error _ _ _ _ _ _ h with h2 | h2 <;> simp_all
          · rcases checkBranch_error _ _ _ _ _ _ _ h with h2 | h2 | h2 <;> simp_all
          · rcases callBranch_error _ _ _ _ _ _ h with h2 | h2 | h2 <;> simp_all
          · rcases betBranch_error _ _ _ _ _ _ _ h with h2 | h2 | h2 <;> simp_all
          · rcases raiseBranch_error _ _ _ _ _ _ _ h with h2 | h2 | h2 <;> simp_all
          · rcases allInBranch_error _ _ _ _ _ _ _ h with h2 | h2 | h2 <;> simp_all
          · simp only [Except.error.injEq, Prod.mk.injEq] at h
            exact h.2.symm
  · intro s i p amt hnd hai hget hact hcb hbb hchips
    simp only [processPlayerAction, players_find_eq s i p hnd hget, hai, hget]
    rw [if_neg (by simp), if_neg (by simp [hact])]
    rw [if_neg (by decide), if_neg (by decide), if_neg (by decide), if_pos (by decide)]
    simp only [betBranch, hcb]
    rw [if_neg (by omega), if_neg (by omega), if_pos (by omega)]

/-- C4 witness: an action for an unknown seat errors with the state
unchanged, and a concrete over-stack bet is rejected with the state
unchanged. -/
theorem c4_rejected_actions_atomic_witness :
    (initGame 5 10 9 0) = (initGame 5 10 9 0) ∧
    processPlayerAction { tieState with active_player_index := some 0 } 0 ACTION_BET 200 =
      .error (.betOverStack, { tieState with active_player_index := some 0 }) :=
  ⟨c4_rejected_actions_atomic.1 (initGame 5 10 9 0) 0 ACTION_FOLD 0 .playerNotFound
      (initGame 5 10 9 0) (by decide) (by decide) (by decide),
   by
    have h := c4_rejected_actions_atomic.2 { tieState with active_player_index := some 0 }
      0 ({ mkPlayer "P0" 100 0 with cards := [⟨'H', 'A'⟩, ⟨'D', 'A'⟩] }) 200
      (by decide) (by decide) (by decide) (by decide) (by decide) (by decide) (by decide)
    simpa using h⟩

/-- C9.  Snapshot purity: get_game_state performs no mutation — the engine
state it hands back (also in the IndexError case) is the input state, and a
second snapshot of that state is the same snapshot. -/
theorem c9_snapshot_pure (s : GameState) :
    stateOf (getGameState s) = s ∧
    getGameState (stateOf (getGameState s)) = getGameState s := by
  have h1 : stateOf (getGameState s) = s := by
    unfold getGameState
    rcases hA : s.active_player_index with _ | ai
    · simp [stateOf]
    · rcases hP : s.players[ai]? with _ | p <;> simp [stateOf, hP]
  exact ⟨h1, by rw [h1]⟩

/-- Updating seat i leaves every other seat unchanged. -/
theorem updateAt_getElem_ne (ps : List Player) (i j : Nat) (f : Player → Player) (h : i ≠ j) :
    (updateAt ps i f)[j]? = ps[j]? := by
  unfold updateAt
  cases hp : ps[i]?
  · rfl
  · exact List.getElem?_set_ne h

/-- Updating seat i replaces exactly that seat. -/
theorem updateAt_getElem_self (ps : List Player) (i : Nat) (f : Player → Player) (p : Player)
    (h : ps[i]? = some p) : (updateAt ps i f)[i]? = some (f p) := by
  unfold updateAt
  rw [h]
  have hi : i < ps.length := by
    by_contra hcon
    rw [List.getElem?_eq_none_iff.mpr (by omega)] at h
    cases h
  rw [List.getElem?_set_eq hi]

/-- With distinct ids, different seats hold different ids. -/
theorem nodup_ids_ne (ps : List Player) (i j : Nat) (p q : Player)
    (hnd : (ps.map (fun r => r.player_id)).Nodup)
    (hi : ps[i]? = some p) (hj : ps[j]? = some q) (hij : i ≠ j) :
    p.player_id ≠ q.player_id := by
  have hi2 : (ps.map (fun r => r.player_id))[i]? = some p.player_id := by
    rw [List.getElem?_map, hi]; rfl
  have hj2 : (ps.map (fun r => r.player_id))[j]? = some q.player_id := by
    rw [List.getElem?_map, hj]; rfl
  intro hpq
  rw [hpq] at hi2
  have hil : i < (ps.map (fun r => r.player_id)).length := by
    by_contra hcon
    rw [List.getElem?_eq_none_iff.mpr (by omega)] at hi2
    cases hi2
  have hjl : j < (ps.map (fun r => r.player_id)).length := by
    by_contra hcon
    rw [List.getElem?_eq_none_iff.mpr (by omega)] at hj2
    cases hj2
  rw [List.getElem?_eq_getElem hil] at hi2
  rw [List.getElem?_eq_getElem hjl] at hj2
  simp only [Option.some.injEq] at hi2 hj2
  have heq : (List.map (fun r => r.player_id) ps)[i] =
      (List.map (fun r => r.player_id) ps)[j] := by rw [hi2, hj2]
  exact hij (List.Nodup.getElem_inj_iff hnd |>.mp heq)


/-- A live, unacted, non-all-in seat makes the betting round incomplete. -/
theorem incomplete_of_witness (s : GameState) (j : Nat) (q : Player)
    (hj : s.players[j]? = some q) (ha : q.is_active = true) (hn : q.is_all_in = false)
    (hha : q.has_acted = false) : isBettingRoundComplete s = false := by
  have hmem : q ∈ s.players := List.getElem?_mem hj
  have hmem2 : q ∈ s.players.filter (fun p => p.is_active && !p.is_all_in) :=
    List.mem_filter.mpr ⟨hmem, by simp [ha, hn]⟩
  have hne : (s.players.filter (fun p => p.is_active && !p.is_all_in)).isEmpty = false := by
    rcases hemp : (s.players.filter (fun p => p.is_active && !p.is_all_in)).isEmpty with _ | _
    · exact hemp
    · rw [List.isEmpty_iff] at hemp
      rw [hemp] at hmem2
      cases hmem2
  have hany : (s.players.filter (fun p => p.is_active && !p.is_all_in)).any
      (fun p => !p.has_acted) = true :=
    List.any_eq_true.mpr ⟨q, hmem2, by simp [hha]⟩
  simp only [isBettingRoundComplete, hne, hany]
  rfl

/-- When the betting round stays open, the action tail just moves the turn
and succeeds. -/
theorem afterAction_ok_of_incomplete (s : GameState) (pIdx pid : Nat) (act : String)
    (amt : Int) (w : Option (List WinnerRec)) (sd : Bool)
    (h : isBettingRoundComplete
        { s with players := updateAt s.players pIdx (fun p => { p with has_acted := true }) } =
      false) :
    ∃ r, afterAction s pIdx pid act amt w sd =
      .ok (moveToNextActivePlayer
        { s with players := updateAt s.players pIdx (fun p => { p with has_acted := true }) }, r) := by
  simp only [afterAction, h]
  exact ⟨_, rfl⟩

/-- Moving the turn does not touch the seats. -/
theorem moveToNext_players (s : GameState) : (moveToNextActivePlayer s).players = s.players := by
  simp only [moveToNextActivePlayer]
  split
  · rfl
  · split <;> rfl

/-- Moving the turn does not touch the high bet. -/
theorem moveToNext_current_bet (s : GameState) :
    (moveToNextActivePlayer s).current_bet = s.current_bet := by
  simp only [moveToNextActivePlayer]
  split
  · rfl
  · split <;> rfl

/-- The seats of addToPot's result. -/
theorem addToPot_players (s : GameState) (amt : Int) : (addToPot s amt).players = s.players := rfl

/-- With a live, unacted, non-all-in seat other than the actor, the action
tail succeeds by moving the turn. -/
theorem afterAction_ok_of_other_seat (s : GameState) (pIdx pid : Nat) (act : String)
    (amt : Int) (w : Option (List WinnerRec)) (sd : Bool) (j : Nat) (q : Player)
    (hij : pIdx ≠ j) (hj : s.players[j]? = some q)
    (ha : q.is_active = true) (hn : q.is_all_in = false) (hha : q.has_acted = false) :
    ∃ r, afterAction s pIdx pid act amt w sd =
      .ok (moveToNextActivePlayer
        { s with players := updateAt s.players pIdx (fun p => { p with has_acted := true }) }, r) := by
  apply afterAction_ok_of_incomplete
  apply incomplete_of_witness _ j q _ ha hn hha
  show (updateAt s.players pIdx _)[j]? = some q
  rw [updateAt_getElem_ne _ _ _ _ hij, hj]

/-- With distinct ids and the to-act seat live, an Act dispatches to the
raise branch. -/
theorem dispatch_raise (s : GameState) (i : Nat) (p : Player) (x : Int)
    (hnd : (s.players.map (fun q => q.player_id)).Nodup)
    (hai : s.active_player_index = some i)
    (hget : s.players[i]? = some p)
    (hact : p.is_active = true) :
    processPlayerAction s p.player_id ACTION_RAISE x = raiseBranch s i p.player_id p x := by
  simp only [processPlayerAction, players_find_eq s i p hnd hget, hai, hget]
  rw [if_neg (by simp), if_neg (by simp [hact])]
  rw [if_neg (by decide), if_neg (by decide), if_neg (by decide), if_neg (by decide),
    if_pos (by decide)]

/-- C5 (amended).  With a positive high bet h and to-act seat holding chips c
and round contribution r, a Raise to x is rejected below
h + (h - r) (raiseBelowMin, state unchanged), rejected above c + r
(raiseOverStack, state unchanged), and accepted in between. -/
theorem c5_min_raise_rule (s : GameState) (i : Nat) (p : Player) (x : Int)
    (hnd : (s.players.map (fun q => q.player_id)).Nodup)
    (hai : s.active_player_index = some i)
    (hget : s.players[i]? = some p)
    (hact : p.is_active = true)
    (hh : 0 < s.current_bet)
    (hother : ∃ j q, j ≠ i ∧ s.players[j]? = some q ∧ q.is_active = true ∧ q.is_all_in = false) :
    (x < s.current_bet + (s.current_bet - p.current_bet) →
      processPlayerAction s p.player_id ACTION_RAISE x = .error (.raiseBelowMin, s)) ∧
    (s.current_bet + (s.current_bet - p.current_bet) ≤ x → p.chips + p.current_bet < x →
      processPlayerAction s p.player_id ACTION_RAISE x = .error (.raiseOverStack, s)) ∧
    (s.current_bet + (s.current_bet - p.current_bet) ≤ x → x ≤ p.chips + p.current_bet →
      ∃ s2 r, processPlayerAction s p.player_id ACTION_RAISE x = .ok (s2, r)) := by
  have hdisp := dispatch_raise s i p x hnd hai hget hact
  refine ⟨?_, ?_, ?_⟩
  · intro hlt
    rw [hdisp]
    simp only [raiseBranch]
    rw [if_neg (by omega), if_pos hlt]
  · intro hge hover
    rw [hdisp]
    simp only [raiseBranch]
    rw [if_neg (by omega), if_neg (by omega), if_pos (by omega)]
  · intro hge hle
    rw [hdisp]
    simp only [raiseBranch]
    rw [if_neg (by omega), if_neg (by omega), if_neg (by omega)]
    obtain ⟨j, q, hji, hjget, hqa, hqn⟩ := hother
    have hij : i ≠ j := fun he => hji he.symm
    have hqid : q.player_id ≠ p.player_id := nodup_ids_ne s.players j i q p hnd hjget hget hji
    refine ⟨_, afterAction_ok_of_other_seat _ i p.player_id ACTION_RAISE x none false j
      ({ q with has_acted := false }) hij ?_ hqa hqn rfl⟩
    simp only [addToPot, resetOthersHasActed]
    rw [updateAt_getElem_ne _ _ _ _ hij]
    rw [List.getElem?_map]
    rw [updateAt_getElem_ne _ _ _ _ hij]
    rw [hjget]
    simp [hqid, hqa, hqn]

/-- When the betting round stays open, the action tail is exactly: mark the
actor acted, move the turn, return the incomplete-round result. -/
theorem afterAction_ok_eq (s : GameState) (pIdx pid : Nat) (act : String) (amt : Int)
    (w : Option (List WinnerRec)) (sd : Bool)
    (h : isBettingRoundComplete
        { s with players := updateAt s.players pIdx (fun p => { p with has_acted := true }) } =
      false) :
    afterAction s pIdx pid act amt w sd =
      .ok (tailState s pIdx, tailResult s pIdx pid act amt w sd) := by
  simp only [afterAction, h]
  rfl

/-- With distinct ids and the to-act seat live, an Act dispatches to the
all-in branch. -/
theorem dispatch_allin (s : GameState) (i : Nat) (p : Player) (amt : Int)
    (hnd : (s.players.map (fun q => q.player_id)).Nodup)
    (hai : s.active_player_index = some i)
    (hget : s.players[i]? = some p)
    (hact : p.is_active = true) :
    processPlayerAction s p.player_id ACTION_ALL_IN amt = allInBranch s i p.player_id p amt := by
  simp only [processPlayerAction, players_find_eq s i p hnd hget, hai, hget]
  rw [if_neg (by simp), if_neg (by simp [hact])]
  rw [if_neg (by decide), if_neg (by decide), if_neg (by decide), if_neg (by decide),
    if_neg (by decide), if_pos (by decide)]

/-- C6 (amended).  An all-in whose total exceeds the current high bet by ANY
positive amount — no matter how small relative to the last raise
increment — raises the high bet to that total and clears the has-acted flag
of every other live, non-all-in seat: betting is re-opened. -/
theorem c6_all_in_over_high_bet_reopens (s : GameState) (i : Nat) (p : Player) (amt : Int)
    (hnd : (s.players.map (fun q => q.player_id)).Nodup)
    (hai : s.active_player_index = some i)
    (hget : s.players[i]? = some p)
    (hact : p.is_active = true)
    (hchips : 0 < p.chips)
    (htot : s.current_bet < p.current_bet + p.chips)
    (j : Nat) (q : Player) (hji : j ≠ i) (hjget : s.players[j]? = some q)
    (hqa : q.is_active = true) (hqn : q.is_all_in = false) :
    ∃ s2 r, processPlayerAction s p.player_id ACTION_ALL_IN amt = .ok (s2, r) ∧
      s2.current_bet = p.current_bet + p.chips ∧
      ∃ q2, s2.players[j]? = some q2 ∧ q2.has_acted = false ∧ q2.is_active = true ∧
        q2.is_all_in = false := by
  have hij : i ≠ j := fun he => hji he.symm
  have hqid : q.player_id ≠ p.player_id := nodup_ids_ne s.players j i q p hnd hjget hget hji
  rw [dispatch_allin s i p amt hnd hai hget hact]
  simp only [allInBranch]
  rw [if_neg (by simp only [beq_iff_eq]; omega), if_pos (by omega), if_pos (by omega)]
  rw [afterAction_ok_eq]
  · refine ⟨_, _, rfl, ?_, ⟨{ q with has_acted := false }, ?_, rfl, hqa, hqn⟩⟩
    · simp only [tailState, moveToNext_current_bet, addToPot, resetOthersHasActed]
    · simp only [tailState, moveToNext_players, addToPot, resetOthersHasActed]
      rw [updateAt_getElem_ne _ _ _ _ hij]
      rw [updateAt_getElem_ne _ _ _ _ hij]
      rw [List.getElem?_map]
      rw [hjget]
      simp [hqid, hqa, hqn]
  · apply incomplete_of_witness _ j ({ q with has_acted := false }) _ hqa hqn rfl
    simp only [addToPot, resetOthersHasActed]
    rw [updateAt_getElem_ne _ _ _ _ hij]
    rw [updateAt_getElem_ne _ _ _ _ hij]
    rw [List.getElem?_map]
    rw [hjget]
    simp [hqid, hqa, hqn]


/-- C5 witness: in raiseState (high bet 30 after a raise from 10), seat 1
(5 committed, 995 behind) has a raise to 50 rejected on the unchanged state
and a raise to 55 = 30 + (30 - 5) accepted. -/
theorem c5_min_raise_rule_witness :
    processPlayerAction raiseState raiseP1.player_id ACTION_RAISE 50 =
      .error (.raiseBelowMin, raiseState) ∧
    (∃ s2 r, processPlayerAction raiseState raiseP1.player_id ACTION_RAISE 55 = .ok (s2, r)) :=
  ⟨(c5_min_raise_rule raiseState 1 raiseP1 50 (by decide) (by decide) (by decide) (by decide)
      (by decide) ⟨2, raiseP2, by decide, by decide, by decide, by decide⟩).1 (by decide),
   (c5_min_raise_rule raiseState 1 raiseP1 55 (by decide) (by decide) (by decide) (by decide)
      (by decide) ⟨2, raiseP2, by decide, by decide, by decide, by decide⟩).2.2
     (by decide) (by decide)⟩

/-- C6 witness: in allInState (high bet 30, last increment 20), seat 1 goes
all-in for a total of 36; the action succeeds, the high bet becomes 36, and
seat 0 — who had already acted — has its has-acted flag cleared. -/
theorem c6_all_in_over_high_bet_reopens_witness :
    ∃ s2 r, processPlayerAction allInState allInP1.player_id ACTION_ALL_IN 0 = .ok (s2, r) ∧
      s2.current_bet = allInP1.current_bet + allInP1.chips ∧
      ∃ q2, s2.players[0]? = some q2 ∧ q2.has_acted = false ∧ q2.is_active = true ∧
        q2.is_all_in = false :=
  c6_all_in_over_high_bet_reopens allInState 1 allInP1 0 (by decide) (by decide) (by decide)
    (by decide) (by decide) (by decide) 0 allInP0 (by decide) (by decide) (by decide) (by decide)

end Poker
